import Mathlib

/-!
Verification of the node-replicated-kernel core against its specification.

This file gives a shallow embedding of the parts of the repository that the
claims talk about:

* the aarch64 boot-time virtual-space builder
  (`src/bootloader/src/arch/aarch64/vspace.rs`): page-table model,
  `map_generic`, `resolve_addr`;
* the init-stack layout of the boot loader (`src/bootloader/src/main.rs`);
* the kernel command-line parser (`src/kernel/src/cmdline.rs`);
* the RPC client call path (`src/lib/rpc/src/client.rs`);
* the rackscale `request_core` handler
  (`src/kernel/src/arch/x86_64/rackscale/processops/request_core.rs`);
* the exception dispatcher and handler registry
  (`src/kernel/src/arch/x86_64/irq.rs`);
* the debugger memory access path (`src/kernel/src/arch/x86_64/gdb/mod.rs`).

Machine integers are modelled as `Nat`; page tables are trees of 512-entry
tables (`Fin 512 → entry`), matching the exclusive-ownership discipline of
the source, where every table page is referenced by exactly one parent
descriptor.  Fallible or aborting code is modelled with `Except`.
-/

/-- Page sizes, from `armv8::aarch64::vm::granule4k`. -/
def BASE_PAGE_SIZE : Nat := 4096

/-- A large (2 MiB) page. -/
def LARGE_PAGE_SIZE : Nat := 2097152

/-- A huge (1 GiB) page. -/
def HUGE_PAGE_SIZE : Nat := 1073741824

/-- Index of the level-0 table slice of a virtual address: bits 39..47
(`L0Table::index`, i.e. `va >> 39 & 0x1ff`). -/
def l0Index (va : Nat) : Fin 512 :=
  ⟨va / 549755813888 % 512, Nat.mod_lt _ (by decide)⟩

/-- Index of the level-1 slice, bits 30..38 (`L1Table::index`). -/
def l1Index (va : Nat) : Fin 512 :=
  ⟨va / 1073741824 % 512, Nat.mod_lt _ (by decide)⟩

/-- Index of the level-2 slice, bits 21..29 (`L2Table::index`). -/
def l2Index (va : Nat) : Fin 512 :=
  ⟨va / 2097152 % 512, Nat.mod_lt _ (by decide)⟩

/-- Index of the level-3 slice, bits 12..20 (`L3Table::index`). -/
def l3Index (va : Nat) : Fin 512 :=
  ⟨va / 4096 % 512, Nat.mod_lt _ (by decide)⟩

/-- The rights enumeration (`MapAction` of the bootloader). -/
inductive MapAction where
  | none
  | readUser
  | readKernel
  | readWriteUser
  | readWriteKernel
  | readExecuteKernel
  | readExecuteUser
  | readWriteExecuteUser
  | readWriteExecuteKernel
  | deviceMemoryKernel
deriving DecidableEq

/-- A level-3 descriptor: invalid, or a 4 KiB page leaf. -/
inductive L3Entry where
  | invalid
  | page (pa : Nat) (rights : MapAction)

/-- A level-3 table (`L3Table`): 512 descriptors. -/
def L3Tab : Type := Fin 512 → L3Entry

/-- A level-2 descriptor: invalid, 2 MiB block leaf, or pointer to an L3 table. -/
inductive L2Entry where
  | invalid
  | block (pa : Nat) (rights : MapAction)
  | table (t : L3Tab)

/-- A level-2 table (`L2Table`). -/
def L2Tab : Type := Fin 512 → L2Entry

/-- A level-1 descriptor: invalid, 1 GiB block leaf, or pointer to an L2 table. -/
inductive L1Entry where
  | invalid
  | block (pa : Nat) (rights : MapAction)
  | table (t : L2Tab)

/-- A level-1 table (`L1Table`). -/
def L1Tab : Type := Fin 512 → L1Entry

/-- A level-0 descriptor: invalid or pointer to an L1 table (L0 has no blocks). -/
inductive L0Entry where
  | invalid
  | table (t : L1Tab)

/-- The page-table root (`L0Table`), i.e. the whole `VSpaceAArch64`. -/
def L0Tab : Type := Fin 512 → L0Entry

/-- A freshly allocated, zeroed L1 table (`new_l1_table` zeroes the page;
a zero descriptor is invalid). -/
def emptyL1 : L1Tab := fun _ => L1Entry.invalid

/-- A freshly allocated, zeroed L2 table (`new_l2_table`). -/
def emptyL2 : L2Tab := fun _ => L2Entry.invalid

/-- A freshly allocated, zeroed L3 table (`new_l3_table`). -/
def emptyL3 : L3Tab := fun _ => L3Entry.invalid

/-- An empty root, as built by `VSpaceAArch64::new`. -/
def emptyL0 : L0Tab := fun _ => L0Entry.invalid

/-- Outcomes of `map_generic` that are not normal termination.
`blockConflict`, `tableConflict` and `mappingExists` are the three `panic!`
sites; `assertMisaligned` are the three `assert_eq!` at entry;
`blockReinterpreted` marks the executions where the source code reaches
`get_l2_table`/`get_l3_table` on a descriptor that is a *block*: the Rust
code then `transmute`s the block's frame into a table and reads/writes that
data frame (no panic, arbitrary behaviour), which the tree model cannot
represent as a state.  `outOfFuel` is a modelling artifact: the model
bounds loop iterations by an explicit fuel that is always sufficient for
terminating runs of the source loop. -/
inductive MapFailure where
  | assertMisaligned
  | blockConflict
  | tableConflict
  | mappingExists
  | blockReinterpreted
  | invalidTableEntry
  | outOfFuel
deriving DecidableEq

/-- The inner 1 GiB loop of `map_generic` (vspace.rs lines 239-279): while the
virtual address stays under the same L0 entry and at least 1 GiB remains, panic
if the L1 descriptor is a block or a table, otherwise install a 1 GiB block. -/
def mapHugeLoop (r : MapAction) :
    Nat → L1Tab → Fin 512 → Nat → Nat → Nat →
    Except MapFailure (L1Tab × Nat × Nat × Nat)
  | 0, _, _, _, _, _ => .error .outOfFuel
  | fuel+1, l1, idx, vaddr, paddr, size =>
    if l0Index vaddr = idx ∧ HUGE_PAGE_SIZE ≤ size then
      match l1 (l1Index vaddr) with
      | .block _ _ => .error .blockConflict
      | .table _ => .error .tableConflict
      | .invalid =>
          mapHugeLoop r fuel
            (Function.update l1 (l1Index vaddr) (L1Entry.block paddr r))
            idx (vaddr + HUGE_PAGE_SIZE) (paddr + HUGE_PAGE_SIZE)
            (size - HUGE_PAGE_SIZE)
    else .ok (l1, vaddr, paddr, size)

/-- The inner 2 MiB loop of `map_generic` (lines 305-349). -/
def mapLargeLoop (r : MapAction) :
    Nat → L2Tab → Fin 512 → Nat → Nat → Nat →
    Except MapFailure (L2Tab × Nat × Nat × Nat)
  | 0, _, _, _, _, _ => .error .outOfFuel
  | fuel+1, l2, idx, vaddr, paddr, size =>
    if l1Index vaddr = idx ∧ LARGE_PAGE_SIZE ≤ size then
      match l2 (l2Index vaddr) with
      | .block _ _ => .error .blockConflict
      | .table _ => .error .tableConflict
      | .invalid =>
          mapLargeLoop r fuel
            (Function.update l2 (l2Index vaddr) (L2Entry.block paddr r))
            idx (vaddr + LARGE_PAGE_SIZE) (paddr + LARGE_PAGE_SIZE)
            (size - LARGE_PAGE_SIZE)
    else .ok (l2, vaddr, paddr, size)

/-- The inner 4 KiB loop of `map_generic` (lines 367-404): panic if the L3
descriptor is already valid, otherwise install a page. -/
def mapBaseLoop (r : MapAction) :
    Nat → L3Tab → Fin 512 → Nat → Nat → Nat →
    Except MapFailure (L3Tab × Nat × Nat × Nat)
  | 0, _, _, _, _, _ => .error .outOfFuel
  | fuel+1, l3, idx, vaddr, paddr, size =>
    if l2Index vaddr = idx ∧ BASE_PAGE_SIZE ≤ size then
      match l3 (l3Index vaddr) with
      | .page _ _ => .error .mappingExists
      | .invalid =>
          mapBaseLoop r fuel
            (Function.update l3 (l3Index vaddr) (L3Entry.page paddr r))
            idx (vaddr + BASE_PAGE_SIZE) (paddr + BASE_PAGE_SIZE)
            (size - BASE_PAGE_SIZE)
    else .ok (l3, vaddr, paddr, size)

/-- Lines 219-226 of `map_generic`: if the L0 entry is invalid, allocate a
fresh zeroed L1 table into it. -/
def allocL0 (l0 : L0Tab) (i0 : Fin 512) : L0Tab :=
  match l0 i0 with
  | .invalid => Function.update l0 i0 (L0Entry.table emptyL1)
  | _ => l0

/-- Lines 285-292: if the L1 entry is invalid, allocate a fresh zeroed L2
table into it. -/
def allocL1 (l1 : L1Tab) (i1 : Fin 512) : L1Tab :=
  match l1 i1 with
  | .invalid => Function.update l1 i1 (L1Entry.table emptyL2)
  | _ => l1

/-- Lines 355-362: if the L2 entry is invalid, allocate a fresh zeroed L3
table into it. -/
def allocL2 (l2 : L2Tab) (i2 : Fin 512) : L2Tab :=
  match l2 i2 with
  | .invalid => Function.update l2 i2 (L2Entry.table emptyL3)
  | _ => l2

/-- One pass of the outer `while vaddr < vbase + psize` loop of `map_generic`
(lines 207-405).  The source maintains `size = (vbase + psize) - vaddr`, so the
loop condition is `size ≠ 0`; `fuel` bounds the number of outer iterations
(each terminating source iteration consumes at least one base page, so
`psize / BASE_PAGE_SIZE + 1` is always enough).  Branch structure follows the
source: (possibly) allocate an L1 table, try the 1 GiB mapping loop, otherwise
descend, try the 2 MiB loop, otherwise descend and run the 4 KiB loop.
Reaching a block descriptor where the walk wants a table is modelled by
`blockReinterpreted` (the source `transmute`s the block frame in
`get_l2_table`/`get_l3_table`, whose only guard is `is_valid`). The inner
loops get fuel 513 since they iterate at most 512 times before their index
guard fails. -/
def mapLoop (r : MapAction) :
    Nat → L0Tab → Nat → Nat → Nat → Except MapFailure L0Tab
  | 0, _, _, _, _ => .error .outOfFuel
  | fuel+1, l0, vaddr, paddr, size =>
    if size = 0 then .ok l0
    else
      match allocL0 l0 (l0Index vaddr) (l0Index vaddr) with
      | .invalid => .error .invalidTableEntry
      | .table l1 =>
        if vaddr % HUGE_PAGE_SIZE = 0 ∧ paddr % HUGE_PAGE_SIZE = 0 ∧
            HUGE_PAGE_SIZE ≤ size then
          match mapHugeLoop r 513 l1 (l0Index vaddr) vaddr paddr size with
          | .error e => .error e
          | .ok (l1', v', p', s') =>
              mapLoop r fuel
                (Function.update (allocL0 l0 (l0Index vaddr)) (l0Index vaddr)
                  (L0Entry.table l1')) v' p' s'
        else
          match allocL1 l1 (l1Index vaddr) (l1Index vaddr) with
          | .invalid => .error .invalidTableEntry
          | .block _ _ => .error .blockReinterpreted
          | .table l2 =>
            if vaddr % LARGE_PAGE_SIZE = 0 ∧ paddr % LARGE_PAGE_SIZE = 0 ∧
                LARGE_PAGE_SIZE ≤ size then
              match mapLargeLoop r 513 l2 (l1Index vaddr) vaddr paddr size with
              | .error e => .error e
              | .ok (l2', v', p', s') =>
                  mapLoop r fuel
                    (Function.update (allocL0 l0 (l0Index vaddr)) (l0Index vaddr)
                      (L0Entry.table
                        (Function.update (allocL1 l1 (l1Index vaddr)) (l1Index vaddr)
                          (L1Entry.table l2'))))
                    v' p' s'
            else
              match allocL2 l2 (l2Index vaddr) (l2Index vaddr) with
              | .invalid => .error .invalidTableEntry
              | .block _ _ => .error .blockReinterpreted
              | .table l3 =>
                match mapBaseLoop r 513 l3 (l2Index vaddr) vaddr paddr size with
                | .error e => .error e
                | .ok (l3', v', p', s') =>
                    mapLoop r fuel
                      (Function.update (allocL0 l0 (l0Index vaddr)) (l0Index vaddr)
                        (L0Entry.table
                          (Function.update (allocL1 l1 (l1Index vaddr)) (l1Index vaddr)
                            (L1Entry.table
                              (Function.update (allocL2 l2 (l2Index vaddr)) (l2Index vaddr)
                                (L2Entry.table l3'))))))
                      v' p' s'

/-- Model of `VSpaceAArch64::map_generic(vbase, (pbase, psize), rights)`: the three
alignment `assert_eq!`s, then the mapping loop. -/
def mapGeneric (l0 : L0Tab) (vbase pbase psize : Nat) (r : MapAction) :
    Except MapFailure L0Tab :=
  if pbase % BASE_PAGE_SIZE = 0 ∧ psize % BASE_PAGE_SIZE = 0 ∧
      vbase % BASE_PAGE_SIZE = 0 then
    mapLoop r (psize / BASE_PAGE_SIZE + 1) l0 vbase pbase psize
  else .error .assertMisaligned

/-- Model of `VSpaceAArch64::resolve_addr`: walk the tree; a block at L1/L2 resolves
with the huge/large in-page offset, a page at L3 with the base offset. -/
def resolveAddr (l0 : L0Tab) (va : Nat) : Option Nat :=
  match l0 (l0Index va) with
  | .invalid => Option.none
  | .table l1 =>
    match l1 (l1Index va) with
    | .invalid => Option.none
    | .block pa _ => Option.some (pa + va % HUGE_PAGE_SIZE)
    | .table l2 =>
      match l2 (l2Index va) with
      | .invalid => Option.none
      | .block pa _ => Option.some (pa + va % LARGE_PAGE_SIZE)
      | .table l3 =>
        match l3 (l3Index va) with
        | .invalid => Option.none
        | .page pa _ => Option.some (pa + va % BASE_PAGE_SIZE)

/-- Does this L1 entry hold a 1 GiB block with the given frame and rights? -/
def L1Entry.isBlockOf (e : L1Entry) (pa : Nat) (r : MapAction) : Bool :=
  match e with
  | .block pa' r' => pa' = pa ∧ r' = r
  | _ => false

/-- Count the 1 GiB block descriptors in the whole tree. -/
def l1BlockCount (l0 : L0Tab) : Nat :=
  (List.finRange 512).foldl
    (fun acc i =>
      acc + (match l0 i with
             | .table l1 =>
                 (List.finRange 512).countP (fun j =>
                   match l1 j with | .block _ _ => true | _ => false)
             | _ => 0)) 0

/-- Count the 2 MiB block descriptors in the whole tree. -/
def l2BlockCount (l0 : L0Tab) : Nat :=
  (List.finRange 512).foldl
    (fun acc i =>
      acc + (match l0 i with
             | .table l1 =>
                 (List.finRange 512).foldl
                   (fun acc2 j =>
                     acc2 + (match l1 j with
                             | .table l2 =>
                                 (List.finRange 512).countP (fun k =>
                                   match l2 k with | .block _ _ => true | _ => false)
                             | _ => 0)) 0
             | _ => 0)) 0

/-- Count the 4 KiB page descriptors in the whole tree. -/
def l3PageCount (l0 : L0Tab) : Nat :=
  (List.finRange 512).foldl
    (fun acc i =>
      acc + (match l0 i with
             | .table l1 =>
                 (List.finRange 512).foldl
                   (fun acc2 j =>
                     acc2 + (match l1 j with
                             | .table l2 =>
                                 (List.finRange 512).foldl
                                   (fun acc3 k =>
                                     acc3 + (match l2 k with
                                             | .table l3 =>
                                                 (List.finRange 512).countP (fun m =>
                                                   match l3 m with
                                                   | .page _ _ => true | _ => false)
                                             | _ => 0)) 0
                             | _ => 0)) 0
             | _ => 0)) 0

/-- Extract the failure of a `map_generic` run, if any. -/
def mapFailureOf (e : Except MapFailure L0Tab) : Option MapFailure :=
  match e with
  | .error f => Option.some f
  | .ok _ => Option.none

/-- The state after the C2 end-to-end paging scenario (empty root, then
`map_generic(0x4000_0000, (0x8000_0000, 0x4020_0000), ReadWriteKernel)`). -/
def c2Run : Except MapFailure L0Tab :=
  mapGeneric emptyL0 0x40000000 0x80000000 0x40200000 MapAction.readWriteKernel

/-- The table produced by `c2Run` (defaulting to the empty root, which the
first conjunct of the theorems about it rules out). -/
def c2State : L0Tab := (c2Run.toOption).getD emptyL0

/-- Growth order on L3 descriptors: `map_generic` only ever replaces invalid
descriptors, so every write grows the tree in this order. -/
inductive L3EntryLe : L3Entry → L3Entry → Prop where
  | inv (b : L3Entry) : L3EntryLe L3Entry.invalid b
  | pg (pa : Nat) (r : MapAction) : L3EntryLe (L3Entry.page pa r) (L3Entry.page pa r)

/-- Pointwise growth order on L3 tables. -/
def L3TabLe (s t : L3Tab) : Prop := ∀ i, L3EntryLe (s i) (t i)

/-- Growth order on L2 descriptors. -/
inductive L2EntryLe : L2Entry → L2Entry → Prop where
  | inv (b : L2Entry) : L2EntryLe L2Entry.invalid b
  | blk (pa : Nat) (r : MapAction) : L2EntryLe (L2Entry.block pa r) (L2Entry.block pa r)
  | tab {s t : L3Tab} (h : L3TabLe s t) : L2EntryLe (L2Entry.table s) (L2Entry.table t)

/-- Pointwise growth order on L2 tables. -/
def L2TabLe (s t : L2Tab) : Prop := ∀ i, L2EntryLe (s i) (t i)

/-- Growth order on L1 descriptors. -/
inductive L1EntryLe : L1Entry → L1Entry → Prop where
  | inv (b : L1Entry) : L1EntryLe L1Entry.invalid b
  | blk (pa : Nat) (r : MapAction) : L1EntryLe (L1Entry.block pa r) (L1Entry.block pa r)
  | tab {s t : L2Tab} (h : L2TabLe s t) : L1EntryLe (L1Entry.table s) (L1Entry.table t)

/-- Pointwise growth order on L1 tables. -/
def L1TabLe (s t : L1Tab) : Prop := ∀ i, L1EntryLe (s i) (t i)

/-- Growth order on L0 descriptors. -/
inductive L0EntryLe : L0Entry → L0Entry → Prop where
  | inv (b : L0Entry) : L0EntryLe L0Entry.invalid b
  | tab {s t : L1Tab} (h : L1TabLe s t) : L0EntryLe (L0Entry.table s) (L0Entry.table t)

/-- Pointwise growth order on page-table roots. -/
def L0TabLe (s t : L0Tab) : Prop := ∀ i, L0EntryLe (s i) (t i)

theorem L3EntryLe_rfl (a : L3Entry) : L3EntryLe a a := by
  cases a
  · exact .inv _
  · exact .pg _ _

theorem L3TabLe_rfl (s : L3Tab) : L3TabLe s s := fun _ => L3EntryLe_rfl _

theorem L2EntryLe_rfl (a : L2Entry) : L2EntryLe a a := by
  cases a
  · exact .inv _
  · exact .blk _ _
  · exact .tab (L3TabLe_rfl _)

theorem L2TabLe_rfl (s : L2Tab) : L2TabLe s s := fun _ => L2EntryLe_rfl _

theorem L1EntryLe_rfl (a : L1Entry) : L1EntryLe a a := by
  cases a
  · exact .inv _
  · exact .blk _ _
  · exact .tab (L2TabLe_rfl _)

theorem L1TabLe_rfl (s : L1Tab) : L1TabLe s s := fun _ => L1EntryLe_rfl _

theorem L0EntryLe_rfl (a : L0Entry) : L0EntryLe a a := by
  cases a
  · exact .inv _
  · exact .tab (L1TabLe_rfl _)

theorem L0TabLe_rfl (s : L0Tab) : L0TabLe s s := fun _ => L0EntryLe_rfl _

theorem L3EntryLe_trans {a b c : L3Entry} (h1 : L3EntryLe a b) (h2 : L3EntryLe b c) :
    L3EntryLe a c := by
  cases h1 with
  | inv _ => exact .inv _
  | pg _ _ => exact h2

theorem L3TabLe_trans {s t u : L3Tab} (h1 : L3TabLe s t) (h2 : L3TabLe t u) :
    L3TabLe s u := fun i => L3EntryLe_trans (h1 i) (h2 i)

theorem L2EntryLe_trans {a b c : L2Entry} (h1 : L2EntryLe a b) (h2 : L2EntryLe b c) :
    L2EntryLe a c := by
  cases h1 with
  | inv _ => exact .inv _
  | blk _ _ => exact h2
  | tab h =>
    cases h2 with
    | tab h' => exact .tab (L3TabLe_trans h h')

theorem L2TabLe_trans {s t u : L2Tab} (h1 : L2TabLe s t) (h2 : L2TabLe t u) :
    L2TabLe s u := fun i => L2EntryLe_trans (h1 i) (h2 i)

theorem L1EntryLe_trans {a b c : L1Entry} (h1 : L1EntryLe a b) (h2 : L1EntryLe b c) :
    L1EntryLe a c := by
  cases h1 with
  | inv _ => exact .inv _
  | blk _ _ => exact h2
  | tab h =>
    cases h2 with
    | tab h' => exact .tab (L2TabLe_trans h h')

theorem L1TabLe_trans {s t u : L1Tab} (h1 : L1TabLe s t) (h2 : L1TabLe t u) :
    L1TabLe s u := fun i => L1EntryLe_trans (h1 i) (h2 i)

theorem L0EntryLe_trans {a b c : L0Entry} (h1 : L0EntryLe a b) (h2 : L0EntryLe b c) :
    L0EntryLe a c := by
  cases h1 with
  | inv _ => exact .inv _
  | tab h =>
    cases h2 with
    | tab h' => exact .tab (L1TabLe_trans h h')

theorem L0TabLe_trans {s t u : L0Tab} (h1 : L0TabLe s t) (h2 : L0TabLe t u) :
    L0TabLe s u := fun i => L0EntryLe_trans (h1 i) (h2 i)

theorem L3TabLe_update {s : L3Tab} {i : Fin 512} {e : L3Entry}
    (h : L3EntryLe (s i) e) : L3TabLe s (Function.update s i e) := by
  intro j
  by_cases hj : j = i
  · subst hj
    rw [Function.update_same]
    exact h
  · rw [Function.update_noteq hj]
    exact L3EntryLe_rfl _

theorem L2TabLe_update {s : L2Tab} {i : Fin 512} {e : L2Entry}
    (h : L2EntryLe (s i) e) : L2TabLe s (Function.update s i e) := by
  intro j
  by_cases hj : j = i
  · subst hj
    rw [Function.update_same]
    exact h
  · rw [Function.update_noteq hj]
    exact L2EntryLe_rfl _

theorem L1TabLe_update {s : L1Tab} {i : Fin 512} {e : L1Entry}
    (h : L1EntryLe (s i) e) : L1TabLe s (Function.update s i e) := by
  intro j
  by_cases hj : j = i
  · subst hj
    rw [Function.update_same]
    exact h
  · rw [Function.update_noteq hj]
    exact L1EntryLe_rfl _

theorem L0TabLe_update {s : L0Tab} {i : Fin 512} {e : L0Entry}
    (h : L0EntryLe (s i) e) : L0TabLe s (Function.update s i e) := by
  intro j
  by_cases hj : j = i
  · subst hj
    rw [Function.update_same]
    exact h
  · rw [Function.update_noteq hj]
    exact L0EntryLe_rfl _

theorem allocL0_grow (l0 : L0Tab) (i0 : Fin 512) : L0TabLe l0 (allocL0 l0 i0) := by
  unfold allocL0
  cases h : l0 i0 with
  | invalid =>
    exact L0TabLe_update (by rw [h]; exact .inv _)
  | table _ => exact L0TabLe_rfl _

theorem allocL1_grow (l1 : L1Tab) (i1 : Fin 512) : L1TabLe l1 (allocL1 l1 i1) := by
  unfold allocL1
  cases h : l1 i1 with
  | invalid =>
    exact L1TabLe_update (by rw [h]; exact .inv _)
  | block _ _ => exact L1TabLe_rfl _
  | table _ => exact L1TabLe_rfl _

theorem allocL2_grow (l2 : L2Tab) (i2 : Fin 512) : L2TabLe l2 (allocL2 l2 i2) := by
  unfold allocL2
  cases h : l2 i2 with
  | invalid =>
    exact L2TabLe_update (by rw [h]; exact .inv _)
  | block _ _ => exact L2TabLe_rfl _
  | table _ => exact L2TabLe_rfl _

theorem div30_of_div21 {a b : Nat} (h : a / 2097152 = b / 2097152) :
    a / 1073741824 = b / 1073741824 := by
  have e : (2097152 * 512 : Nat) = 1073741824 := by norm_num
  calc a / 1073741824 = a / (2097152 * 512) := by rw [e]
    _ = a / 2097152 / 512 := (Nat.div_div_eq_div_mul _ _ _).symm
    _ = b / 2097152 / 512 := by rw [h]
    _ = b / (2097152 * 512) := Nat.div_div_eq_div_mul _ _ _
    _ = b / 1073741824 := by rw [e]

theorem div39_of_div30 {a b : Nat} (h : a / 1073741824 = b / 1073741824) :
    a / 549755813888 = b / 549755813888 := by
  have e : (1073741824 * 512 : Nat) = 549755813888 := by norm_num
  calc a / 549755813888 = a / (1073741824 * 512) := by rw [e]
    _ = a / 1073741824 / 512 := (Nat.div_div_eq_div_mul _ _ _).symm
    _ = b / 1073741824 / 512 := by rw [h]
    _ = b / (1073741824 * 512) := Nat.div_div_eq_div_mul _ _ _
    _ = b / 549755813888 := by rw [e]

theorem l0Index_eq_of_div30 {a b : Nat} (h : a / 1073741824 = b / 1073741824) :
    l0Index a = l0Index b := by
  apply Fin.ext
  show a / 549755813888 % 512 = b / 549755813888 % 512
  rw [div39_of_div30 h]

theorem l1Index_eq_of_div30 {a b : Nat} (h : a / 1073741824 = b / 1073741824) :
    l1Index a = l1Index b := by
  apply Fin.ext
  show a / 1073741824 % 512 = b / 1073741824 % 512
  rw [h]

theorem l1Index_eq_of_div21 {a b : Nat} (h : a / 2097152 = b / 2097152) :
    l1Index a = l1Index b := l1Index_eq_of_div30 (div30_of_div21 h)

theorem l0Index_eq_of_div21 {a b : Nat} (h : a / 2097152 = b / 2097152) :
    l0Index a = l0Index b := l0Index_eq_of_div30 (div30_of_div21 h)

theorem l2Index_eq_of_div21 {a b : Nat} (h : a / 2097152 = b / 2097152) :
    l2Index a = l2Index b := by
  apply Fin.ext
  show a / 2097152 % 512 = b / 2097152 % 512
  rw [h]

theorem div21_step {v : Nat} (h : l2Index (v + 4096) = l2Index v) :
    (v + 4096) / 2097152 = v / 2097152 := by
  have hv : (v + 4096) / 2097152 % 512 = v / 2097152 % 512 := congrArg Fin.val h
  omega

theorem div30_step {v : Nat} (h : l1Index (v + 2097152) = l1Index v) :
    (v + 2097152) / 1073741824 = v / 1073741824 := by
  have hv : (v + 2097152) / 1073741824 % 512 = v / 1073741824 % 512 := congrArg Fin.val h
  omega

theorem div39_step {v : Nat} (h : l0Index (v + 1073741824) = l0Index v) :
    (v + 1073741824) / 549755813888 = v / 549755813888 := by
  have hv : (v + 1073741824) / 549755813888 % 512 = v / 549755813888 % 512 :=
    congrArg Fin.val h
  omega

theorem mapHugeLoop_grow (r : MapAction) :
    ∀ fuel l1 idx vaddr paddr size l1' v' p' s',
      mapHugeLoop r fuel l1 idx vaddr paddr size = .ok (l1', v', p', s') →
      L1TabLe l1 l1' := by
  intro fuel
  induction fuel with
  | zero =>
    intro l1 idx v p s l1' v' p' s' h
    simp [mapHugeLoop] at h
  | succ n ih =>
    intro l1 idx v p s l1' v' p' s' h
    simp only [mapHugeLoop] at h
    split at h
    · split at h
      · exact absurd h (by simp)
      · exact absurd h (by simp)
      · rename_i heq
        refine L1TabLe_trans ?_ (ih _ _ _ _ _ _ _ _ _ h)
        exact L1TabLe_update (by rw [heq]; exact .inv _)
    · simp only [Except.ok.injEq, Prod.mk.injEq] at h
      obtain ⟨h1, _, _, _⟩ := h
      subst h1
      exact L1TabLe_rfl _

theorem mapLargeLoop_grow (r : MapAction) :
    ∀ fuel l2 idx vaddr paddr size l2' v' p' s',
      mapLargeLoop r fuel l2 idx vaddr paddr size = .ok (l2', v', p', s') →
      L2TabLe l2 l2' := by
  intro fuel
  induction fuel with
  | zero =>
    intro l2 idx v p s l2' v' p' s' h
    simp [mapLargeLoop] at h
  | succ n ih =>
    intro l2 idx v p s l2' v' p' s' h
    simp only [mapLargeLoop] at h
    split at h
    · split at h
      · exact absurd h (by simp)
      · exact absurd h (by simp)
      · rename_i heq
        refine L2TabLe_trans ?_ (ih _ _ _ _ _ _ _ _ _ h)
        exact L2TabLe_update (by rw [heq]; exact .inv _)
    · simp only [Except.ok.injEq, Prod.mk.injEq] at h
      obtain ⟨h1, _, _, _⟩ := h
      subst h1
      exact L2TabLe_rfl _

theorem mapBaseLoop_grow (r : MapAction) :
    ∀ fuel l3 idx vaddr paddr size l3' v' p' s',
      mapBaseLoop r fuel l3 idx vaddr paddr size = .ok (l3', v', p', s') →
      L3TabLe l3 l3' := by
  intro fuel
  induction fuel with
  | zero =>
    intro l3 idx v p s l3' v' p' s' h
    simp [mapBaseLoop] at h
  | succ n ih =>
    intro l3 idx v p s l3' v' p' s' h
    simp only [mapBaseLoop] at h
    split at h
    · split at h
      · exact absurd h (by simp)
      · rename_i heq
        refine L3TabLe_trans ?_ (ih _ _ _ _ _ _ _ _ _ h)
        exact L3TabLe_update (by rw [heq]; exact .inv _)
    · simp only [Except.ok.injEq, Prod.mk.injEq] at h
      obtain ⟨h1, _, _, _⟩ := h
      subst h1
      exact L3TabLe_rfl _

theorem L3EntryLe_page_inv {pa : Nat} {r : MapAction} {e : L3Entry}
    (h : L3EntryLe (L3Entry.page pa r) e) : e = L3Entry.page pa r := by
  cases h
  rfl

theorem L2EntryLe_block_inv {pa : Nat} {r : MapAction} {e : L2Entry}
    (h : L2EntryLe (L2Entry.block pa r) e) : e = L2Entry.block pa r := by
  cases h
  rfl

theorem L2EntryLe_table_inv {s : L3Tab} {e : L2Entry}
    (h : L2EntryLe (L2Entry.table s) e) :
    ∃ t, e = L2Entry.table t ∧ L3TabLe s t := by
  cases h with
  | tab h => exact ⟨_, rfl, h⟩

theorem L1EntryLe_block_inv {pa : Nat} {r : MapAction} {e : L1Entry}
    (h : L1EntryLe (L1Entry.block pa r) e) : e = L1Entry.block pa r := by
  cases h
  rfl

theorem L1EntryLe_table_inv {s : L2Tab} {e : L1Entry}
    (h : L1EntryLe (L1Entry.table s) e) :
    ∃ t, e = L1Entry.table t ∧ L2TabLe s t := by
  cases h with
  | tab h => exact ⟨_, rfl, h⟩

theorem L0EntryLe_table_inv {s : L1Tab} {e : L0Entry}
    (h : L0EntryLe (L0Entry.table s) e) :
    ∃ t, e = L0Entry.table t ∧ L1TabLe s t := by
  cases h with
  | tab h => exact ⟨_, rfl, h⟩

theorem mapHugeLoop_spec (r : MapAction) :
    ∀ fuel l1 idx vaddr paddr size l1' v' p' s',
      mapHugeLoop r fuel l1 idx vaddr paddr size = .ok (l1', v', p', s') →
      s' ≤ size ∧ v' = vaddr + (size - s') ∧ p' = paddr + (size - s') ∧
      (size - s') % HUGE_PAGE_SIZE = 0 ∧
      (∀ j, j < size - s' → j % HUGE_PAGE_SIZE = 0 →
        l0Index (vaddr + j) = idx ∧
        l1' (l1Index (vaddr + j)) = L1Entry.block (paddr + j) r) := by
  intro fuel
  induction fuel with
  | zero =>
    intro l1 idx v p s l1' v' p' s' h
    simp [mapHugeLoop] at h
  | succ n ih =>
    intro l1 idx v p s l1' v' p' s' h
    simp only [mapHugeLoop] at h
    split at h
    · rename_i hc
      obtain ⟨hidx0, hsz⟩ := hc
      split at h
      · exact absurd h (by simp)
      · exact absurd h (by simp)
      · rename_i heq
        have grow := mapHugeLoop_grow r n _ _ _ _ _ _ _ _ _ h
        obtain ⟨ih1, ih2, ih3, ih4, ih5⟩ := ih _ _ _ _ _ _ _ _ _ h
        simp only [HUGE_PAGE_SIZE] at hsz ih1 ih2 ih3 ih4 ih5 ⊢
        refine ⟨by omega, by omega, by omega, by omega, ?_⟩
        intro j hj hjm
        by_cases hj0 : j = 0
        · subst hj0
          refine ⟨by simpa using hidx0, ?_⟩
          have hle := grow (l1Index v)
          rw [Function.update_same] at hle
          simp only [Nat.add_zero]
          exact L1EntryLe_block_inv hle
        · have hjH : 1073741824 ≤ j := by omega
          have h5 := ih5 (j - 1073741824) (by omega) (by omega)
          rw [show v + 1073741824 + (j - 1073741824) = v + j by omega,
              show p + 1073741824 + (j - 1073741824) = p + j by omega] at h5
          exact h5
    · simp only [Except.ok.injEq, Prod.mk.injEq] at h
      obtain ⟨h1, h2, h3, h4⟩ := h
      subst h1; subst h2; subst h3; subst h4
      refine ⟨Nat.le_refl _, by omega, by omega, by simp, ?_⟩
      intro j hj _
      omega

theorem mapLargeLoop_spec (r : MapAction) :
    ∀ fuel l2 idx vaddr paddr size l2' v' p' s',
      mapLargeLoop r fuel l2 idx vaddr paddr size = .ok (l2', v', p', s') →
      s' ≤ size ∧ v' = vaddr + (size - s') ∧ p' = paddr + (size - s') ∧
      (size - s') % LARGE_PAGE_SIZE = 0 ∧
      (∀ j, j < size - s' → j % LARGE_PAGE_SIZE = 0 →
        l0Index (vaddr + j) = l0Index vaddr ∧
        l1Index (vaddr + j) = idx ∧
        l2' (l2Index (vaddr + j)) = L2Entry.block (paddr + j) r) := by
  intro fuel
  induction fuel with
  | zero =>
    intro l2 idx v p s l2' v' p' s' h
    simp [mapLargeLoop] at h
  | succ n ih =>
    intro l2 idx v p s l2' v' p' s' h
    simp only [mapLargeLoop] at h
    split at h
    · rename_i hc
      obtain ⟨hidx0, hsz⟩ := hc
      split at h
      · exact absurd h (by simp)
      · exact absurd h (by simp)
      · rename_i heq
        have grow := mapLargeLoop_grow r n _ _ _ _ _ _ _ _ _ h
        obtain ⟨ih1, ih2, ih3, ih4, ih5⟩ := ih _ _ _ _ _ _ _ _ _ h
        simp only [LARGE_PAGE_SIZE] at hsz ih1 ih2 ih3 ih4 ih5 ⊢
        refine ⟨by omega, by omega, by omega, by omega, ?_⟩
        intro j hj hjm
        by_cases hj0 : j = 0
        · subst hj0
          refine ⟨rfl, by simpa using hidx0, ?_⟩
          have hle := grow (l2Index v)
          rw [Function.update_same] at hle
          simp only [Nat.add_zero]
          exact L2EntryLe_block_inv hle
        · have hjL : 2097152 ≤ j := by omega
          have h50 := ih5 0 (by omega) (by omega)
          have hstep : l1Index (v + 2097152) = l1Index v := by
            rw [show v + 2097152 + 0 = v + 2097152 by omega] at h50
            rw [h50.2.1, hidx0]
          have hdiv : (v + 2097152) / 1073741824 = v / 1073741824 := div30_step hstep
          have h5 := ih5 (j - 2097152) (by omega) (by omega)
          rw [show v + 2097152 + (j - 2097152) = v + j by omega,
              show p + 2097152 + (j - 2097152) = p + j by omega] at h5
          refine ⟨?_, h5.2.1, h5.2.2⟩
          rw [h5.1]
          exact l0Index_eq_of_div30 hdiv
    · simp only [Except.ok.injEq, Prod.mk.injEq] at h
      obtain ⟨h1, h2, h3, h4⟩ := h
      subst h1; subst h2; subst h3; subst h4
      refine ⟨Nat.le_refl _, by omega, by omega, by simp, ?_⟩
      intro j hj _
      omega

theorem mapBaseLoop_spec (r : MapAction) :
    ∀ fuel l3 idx vaddr paddr size l3' v' p' s',
      mapBaseLoop r fuel l3 idx vaddr paddr size = .ok (l3', v', p', s') →
      s' ≤ size ∧ v' = vaddr + (size - s') ∧ p' = paddr + (size - s') ∧
      (size - s') % BASE_PAGE_SIZE = 0 ∧
      (∀ j, j < size - s' → j % BASE_PAGE_SIZE = 0 →
        l0Index (vaddr + j) = l0Index vaddr ∧
        l1Index (vaddr + j) = l1Index vaddr ∧
        l2Index (vaddr + j) = idx ∧
        l3' (l3Index (vaddr + j)) = L3Entry.page (paddr + j) r) := by
  intro fuel
  induction fuel with
  | zero =>
    intro l3 idx v p s l3' v' p' s' h
    simp [mapBaseLoop] at h
  | succ n ih =>
    intro l3 idx v p s l3' v' p' s' h
    simp only [mapBaseLoop] at h
    split at h
    · rename_i hc
      obtain ⟨hidx0, hsz⟩ := hc
      split at h
      · exact absurd h (by simp)
      · rename_i heq
        have grow := mapBaseLoop_grow r n _ _ _ _ _ _ _ _ _ h
        obtain ⟨ih1, ih2, ih3, ih4, ih5⟩ := ih _ _ _ _ _ _ _ _ _ h
        simp only [BASE_PAGE_SIZE] at hsz ih1 ih2 ih3 ih4 ih5 ⊢
        refine ⟨by omega, by omega, by omega, by omega, ?_⟩
        intro j hj hjm
        by_cases hj0 : j = 0
        · subst hj0
          refine ⟨rfl, rfl, by simpa using hidx0, ?_⟩
          have hle := grow (l3Index v)
          rw [Function.update_same] at hle
          simp only [Nat.add_zero]
          exact L3EntryLe_page_inv hle
        · have hjB : 4096 ≤ j := by omega
          have h50 := ih5 0 (by omega) (by omega)
          have hstep : l2Index (v + 4096) = l2Index v := by
            rw [show v + 4096 + 0 = v + 4096 by omega] at h50
            rw [h50.2.2.1, hidx0]
          have hdiv : (v + 4096) / 2097152 = v / 2097152 := div21_step hstep
          have h5 := ih5 (j - 4096) (by omega) (by omega)
          rw [show v + 4096 + (j - 4096) = v + j by omega,
              show p + 4096 + (j - 4096) = p + j by omega] at h5
          refine ⟨?_, ?_, h5.2.2.1, h5.2.2.2⟩
          · rw [h5.1]
            exact l0Index_eq_of_div21 hdiv
          · rw [h5.2.1]
            exact l1Index_eq_of_div21 hdiv
    · simp only [Except.ok.injEq, Prod.mk.injEq] at h
      obtain ⟨h1, h2, h3, h4⟩ := h
      subst h1; subst h2; subst h3; subst h4
      refine ⟨Nat.le_refl _, by omega, by omega, by simp, ?_⟩
      intro j hj _
      omega

theorem resolveAddr_mono {l0 l0' : L0Tab} (hle : L0TabLe l0 l0') {va pa : Nat}
    (hres : resolveAddr l0 va = Option.some pa) :
    resolveAddr l0' va = Option.some pa := by
  have h0 := hle (l0Index va)
  cases h0eq : l0 (l0Index va) with
  | invalid =>
    simp only [resolveAddr, h0eq] at hres
    simp at hres
  | table l1 =>
    rw [h0eq] at h0
    obtain ⟨t1, ht1, h1le⟩ := L0EntryLe_table_inv h0
    simp only [resolveAddr, h0eq] at hres
    simp only [resolveAddr, ht1]
    have h1 := h1le (l1Index va)
    cases h1eq : l1 (l1Index va) with
    | invalid =>
      simp only [h1eq] at hres
      simp at hres
    | block pa1 r1 =>
      rw [h1eq] at h1
      simp only [h1eq] at hres
      simp only [L1EntryLe_block_inv h1]
      exact hres
    | table l2 =>
      rw [h1eq] at h1
      obtain ⟨t2, ht2, h2le⟩ := L1EntryLe_table_inv h1
      simp only [h1eq] at hres
      simp only [ht2]
      have h2 := h2le (l2Index va)
      cases h2eq : l2 (l2Index va) with
      | invalid =>
        simp only [h2eq] at hres
        simp at hres
      | block pa2 r2 =>
        rw [h2eq] at h2
        simp only [h2eq] at hres
        simp only [L2EntryLe_block_inv h2]
        exact hres
      | table l3 =>
        rw [h2eq] at h2
        obtain ⟨t3, ht3, h3le⟩ := L2EntryLe_table_inv h2
        simp only [h2eq] at hres
        simp only [ht3]
        have h3 := h3le (l3Index va)
        cases h3eq : l3 (l3Index va) with
        | invalid =>
          simp only [h3eq] at hres
          simp at hres
        | page pa3 r3 =>
          rw [h3eq] at h3
          simp only [h3eq] at hres
          simp only [L3EntryLe_page_inv h3]
          exact hres

theorem mapLoop_grow (r : MapAction) :
    ∀ fuel l0 vaddr paddr size l0',
      mapLoop r fuel l0 vaddr paddr size = .ok l0' → L0TabLe l0 l0' := by
  intro fuel
  induction fuel with
  | zero =>
    intro l0 v p s l0' h
    simp [mapLoop] at h
  | succ n ih =>
    intro l0 v p s l0' h
    simp only [mapLoop] at h
    split at h
    · simp only [Except.ok.injEq] at h
      subst h
      exact L0TabLe_rfl _
    · split at h
      · exact absurd h (by simp)
      · rename_i l1 hA
        split at h
        · split at h
          · exact absurd h (by simp)
          · rename_i l1' v' p' s' hHeq
            have hg := mapHugeLoop_grow r 513 _ _ _ _ _ _ _ _ _ hHeq
            refine L0TabLe_trans ?_ (ih _ _ _ _ _ h)
            refine L0TabLe_trans (allocL0_grow l0 (l0Index v)) ?_
            apply L0TabLe_update
            rw [hA]
            exact .tab hg
        · split at h
          · exact absurd h (by simp)
          · exact absurd h (by simp)
          · rename_i l2 hB
            split at h
            · split at h
              · exact absurd h (by simp)
              · rename_i l2' v' p' s' hLeq
                have hg := mapLargeLoop_grow r 513 _ _ _ _ _ _ _ _ _ hLeq
                refine L0TabLe_trans ?_ (ih _ _ _ _ _ h)
                refine L0TabLe_trans (allocL0_grow l0 (l0Index v)) ?_
                apply L0TabLe_update
                rw [hA]
                refine .tab ?_
                refine L1TabLe_trans (allocL1_grow l1 (l1Index v)) ?_
                apply L1TabLe_update
                rw [hB]
                exact .tab hg
            · split at h
              · exact absurd h (by simp)
              · exact absurd h (by simp)
              · rename_i l3 hC
                split at h
                · exact absurd h (by simp)
                · rename_i l3' v' p' s' hBeq
                  have hg := mapBaseLoop_grow r 513 _ _ _ _ _ _ _ _ _ hBeq
                  refine L0TabLe_trans ?_ (ih _ _ _ _ _ h)
                  refine L0TabLe_trans (allocL0_grow l0 (l0Index v)) ?_
                  apply L0TabLe_update
                  rw [hA]
                  refine .tab ?_
                  refine L1TabLe_trans (allocL1_grow l1 (l1Index v)) ?_
                  apply L1TabLe_update
                  rw [hB]
                  refine .tab ?_
                  refine L2TabLe_trans (allocL2_grow l2 (l2Index v)) ?_
                  apply L2TabLe_update
                  rw [hC]
                  exact .tab hg

theorem resolve_chunk_huge (r : MapAction) (A : L0Tab) (l1' : L1Tab)
    (v p c k : Nat) (hv : v % HUGE_PAGE_SIZE = 0) (hk : k < c)
    (hidx : ∀ j, j < c → j % HUGE_PAGE_SIZE = 0 →
      l0Index (v + j) = l0Index v ∧
      l1' (l1Index (v + j)) = L1Entry.block (p + j) r) :
    resolveAddr (Function.update A (l0Index v) (L0Entry.table l1')) (v + k) =
      Option.some (p + k) := by
  simp only [HUGE_PAGE_SIZE] at hv hidx
  obtain ⟨h0, hblk⟩ := hidx (k - k % 1073741824) (by omega) (by omega)
  have hvj : (v + (k - k % 1073741824)) % 1073741824 = 0 := by omega
  have d30 : (v + k) / 1073741824 = (v + (k - k % 1073741824)) / 1073741824 := by
    omega
  have e1 : l1Index (v + k) = l1Index (v + (k - k % 1073741824)) :=
    l1Index_eq_of_div30 d30
  have e0 : l0Index (v + k) = l0Index v := by
    rw [l0Index_eq_of_div30 d30]
    exact h0
  have hoff : (v + k) % 1073741824 = k % 1073741824 := by omega
  simp only [resolveAddr]
  rw [e0]
  simp only [Function.update_same]
  rw [e1]
  simp only [hblk, HUGE_PAGE_SIZE, hoff, Option.some.injEq]
  omega

theorem resolve_chunk_large (r : MapAction) (A : L0Tab) (B : L1Tab) (l2' : L2Tab)
    (v p c k : Nat) (hv : v % LARGE_PAGE_SIZE = 0) (hk : k < c)
    (hidx : ∀ j, j < c → j % LARGE_PAGE_SIZE = 0 →
      l0Index (v + j) = l0Index v ∧
      l1Index (v + j) = l1Index v ∧
      l2' (l2Index (v + j)) = L2Entry.block (p + j) r) :
    resolveAddr
      (Function.update A (l0Index v)
        (L0Entry.table (Function.update B (l1Index v) (L1Entry.table l2'))))
      (v + k) = Option.some (p + k) := by
  simp only [LARGE_PAGE_SIZE] at hv hidx
  obtain ⟨h0, h1, hblk⟩ := hidx (k - k % 2097152) (by omega) (by omega)
  have hvj : (v + (k - k % 2097152)) % 2097152 = 0 := by omega
  have d21 : (v + k) / 2097152 = (v + (k - k % 2097152)) / 2097152 := by omega
  have e2 : l2Index (v + k) = l2Index (v + (k - k % 2097152)) :=
    l2Index_eq_of_div21 d21
  have e1 : l1Index (v + k) = l1Index v := by
    rw [l1Index_eq_of_div21 d21]
    exact h1
  have e0 : l0Index (v + k) = l0Index v := by
    rw [l0Index_eq_of_div21 d21]
    exact h0
  have hoff : (v + k) % 2097152 = k % 2097152 := by omega
  simp only [resolveAddr]
  rw [e0]
  simp only [Function.update_same]
  rw [e1]
  simp only [Function.update_same]
  rw [e2]
  simp only [hblk, LARGE_PAGE_SIZE, hoff, Option.some.injEq]
  omega

theorem resolve_chunk_base (r : MapAction) (A : L0Tab) (B : L1Tab) (C : L2Tab)
    (l3' : L3Tab) (v p c k : Nat) (hv : v % BASE_PAGE_SIZE = 0) (hk : k < c)
    (hkm : k % BASE_PAGE_SIZE = 0)
    (hidx : ∀ j, j < c → j % BASE_PAGE_SIZE = 0 →
      l0Index (v + j) = l0Index v ∧
      l1Index (v + j) = l1Index v ∧
      l2Index (v + j) = l2Index v ∧
      l3' (l3Index (v + j)) = L3Entry.page (p + j) r) :
    resolveAddr
      (Function.update A (l0Index v)
        (L0Entry.table (Function.update B (l1Index v)
          (L1Entry.table (Function.update C (l2Index v) (L2Entry.table l3'))))))
      (v + k) = Option.some (p + k) := by
  obtain ⟨h0, h1, h2, hpg⟩ := hidx k hk hkm
  simp only [BASE_PAGE_SIZE] at hv hkm
  have hoff : (v + k) % 4096 = 0 := by omega
  simp only [resolveAddr]
  rw [h0]
  simp only [Function.update_same]
  rw [h1]
  simp only [Function.update_same]
  rw [h2]
  simp only [Function.update_same]
  simp only [hpg, BASE_PAGE_SIZE, hoff, Nat.add_zero]

theorem mapLoop_resolves (r : MapAction) :
    ∀ fuel l0 vaddr paddr size l0',
      mapLoop r fuel l0 vaddr paddr size = .ok l0' →
      vaddr % BASE_PAGE_SIZE = 0 →
      ∀ k, k < size → k % BASE_PAGE_SIZE = 0 →
        resolveAddr l0' (vaddr + k) = Option.some (paddr + k) := by
  intro fuel
  induction fuel with
  | zero =>
    intro l0 v p s l0' h hva k hk hkm
    simp [mapLoop] at h
  | succ n ih =>
    intro l0 v p s l0' h hva k hk hkm
    simp only [mapLoop] at h
    split at h
    · rename_i hs0
      omega
    · rename_i hs0
      split at h
      · exact absurd h (by simp)
      · rename_i l1 hA
        split at h
        · rename_i hguard
          obtain ⟨hvH, hpH, hszH⟩ := hguard
          split at h
          · exact absurd h (by simp)
          · rename_i l1' v' p' s' hHeq
            obtain ⟨hle, hv', hp', hmod, hmapped⟩ :=
              mapHugeLoop_spec r 513 _ _ _ _ _ _ _ _ _ hHeq
            by_cases hkc : k < s - s'
            · have hres := resolve_chunk_huge r (allocL0 l0 (l0Index v)) l1'
                v p (s - s') k hvH hkc hmapped
              exact resolveAddr_mono (mapLoop_grow r n _ _ _ _ _ h) hres
            · have hcB : (s - s') % BASE_PAGE_SIZE = 0 := by
                simp only [HUGE_PAGE_SIZE] at hmod
                simp only [BASE_PAGE_SIZE]
                omega
              have hv'B : v' % BASE_PAGE_SIZE = 0 := by
                rw [hv']
                simp only [BASE_PAGE_SIZE] at hva hcB ⊢
                omega
              have htail := ih _ _ _ _ _ h hv'B (k - (s - s'))
                (by omega) (by simp only [BASE_PAGE_SIZE] at hkm hcB ⊢; omega)
              rw [hv', hp'] at htail
              rw [show v + (s - s') + (k - (s - s')) = v + k by omega,
                  show p + (s - s') + (k - (s - s')) = p + k by omega] at htail
              exact htail
        · split at h
          · exact absurd h (by simp)
          · exact absurd h (by simp)
          · rename_i l2 hB
            split at h
            · rename_i hguard
              obtain ⟨hvL, hpL, hszL⟩ := hguard
              split at h
              · exact absurd h (by simp)
              · rename_i l2' v' p' s' hLeq
                obtain ⟨hle, hv', hp', hmod, hmapped⟩ :=
                  mapLargeLoop_spec r 513 _ _ _ _ _ _ _ _ _ hLeq
                by_cases hkc : k < s - s'
                · have hres := resolve_chunk_large r (allocL0 l0 (l0Index v))
                    (allocL1 l1 (l1Index v)) l2' v p (s - s') k hvL hkc hmapped
                  exact resolveAddr_mono (mapLoop_grow r n _ _ _ _ _ h) hres
                · have hcB : (s - s') % BASE_PAGE_SIZE = 0 := by
                    simp only [LARGE_PAGE_SIZE] at hmod
                    simp only [BASE_PAGE_SIZE]
                    omega
                  have hv'B : v' % BASE_PAGE_SIZE = 0 := by
                    rw [hv']
                    simp only [BASE_PAGE_SIZE] at hva hcB ⊢
                    omega
                  have htail := ih _ _ _ _ _ h hv'B (k - (s - s'))
                    (by omega) (by simp only [BASE_PAGE_SIZE] at hkm hcB ⊢; omega)
                  rw [hv', hp'] at htail
                  rw [show v + (s - s') + (k - (s - s')) = v + k by omega,
                      show p + (s - s') + (k - (s - s')) = p + k by omega] at htail
                  exact htail
            · split at h
              · exact absurd h (by simp)
              · exact absurd h (by simp)
              · rename_i l3 hC
                split at h
                · exact absurd h (by simp)
                · rename_i l3' v' p' s' hBeq
                  obtain ⟨hle, hv', hp', hmod, hmapped⟩ :=
                    mapBaseLoop_spec r 513 _ _ _ _ _ _ _ _ _ hBeq
                  by_cases hkc : k < s - s'
                  · have hres := resolve_chunk_base r (allocL0 l0 (l0Index v))
                      (allocL1 l1 (l1Index v)) (allocL2 l2 (l2Index v)) l3'
                      v p (s - s') k hva hkc hkm hmapped
                    exact resolveAddr_mono (mapLoop_grow r n _ _ _ _ _ h) hres
                  · have hcB : (s - s') % BASE_PAGE_SIZE = 0 := hmod
                    have hv'B : v' % BASE_PAGE_SIZE = 0 := by
                      rw [hv']
                      simp only [BASE_PAGE_SIZE] at hva hcB ⊢
                      omega
                    have htail := ih _ _ _ _ _ h hv'B (k - (s - s'))
                      (by omega) (by simp only [BASE_PAGE_SIZE] at hkm hcB ⊢; omega)
                    rw [hv', hp'] at htail
                    rw [show v + (s - s') + (k - (s - s')) = v + k by omega,
                        show p + (s - s') + (k - (s - s')) = p + k by omega] at htail
                    exact htail

/-- Projection: the L1 (1 GiB) block descriptor reached by `va`, if any. -/
def l1EntryAt (l0 : L0Tab) (va : Nat) : Option (Nat × MapAction) :=
  match l0 (l0Index va) with
  | .table l1 =>
    match l1 (l1Index va) with
    | .block pa r => Option.some (pa, r)
    | _ => Option.none
  | _ => Option.none

/-- Projection: the L2 (2 MiB) block descriptor reached by `va`, if any. -/
def l2EntryAt (l0 : L0Tab) (va : Nat) : Option (Nat × MapAction) :=
  match l0 (l0Index va) with
  | .table l1 =>
    match l1 (l1Index va) with
    | .table l2 =>
      match l2 (l2Index va) with
      | .block pa r => Option.some (pa, r)
      | _ => Option.none
    | _ => Option.none
  | _ => Option.none

/-- The state used by the C1 witness: a successful two-page mapping. -/
def c1WitnessState : L0Tab :=
  ((mapGeneric emptyL0 4096 12288 8192 MapAction.readWriteKernel).toOption).getD emptyL0

/-- C1: for every `vbase`, `pbase` and `size` that are multiples of 4 KiB
(with `vbase + size` in the canonical range), after
`map_generic(vbase, (pbase, size), rights)` completes normally on a VSpace,
every 4 KiB-stepped offset `k` in `[0, size)` satisfies
`resolve_addr(vbase + k) == Some(pbase + k)`. -/
theorem mapGeneric_resolves (l0 l0' : L0Tab) (vbase pbase size : Nat)
    (r : MapAction) (k : Nat)
    (hv : vbase % 4096 = 0) (hp : pbase % 4096 = 0) (hs : size % 4096 = 0)
    (_hcan : vbase + size ≤ 2 ^ 48)
    (hmap : mapGeneric l0 vbase pbase size r = .ok l0')
    (hk : k < size) (hkm : k % 4096 = 0) :
    resolveAddr l0' (vbase + k) = Option.some (pbase + k) := by
  unfold mapGeneric at hmap
  rw [if_pos] at hmap
  · exact mapLoop_resolves r _ _ _ _ _ _ hmap
      (by simpa [BASE_PAGE_SIZE] using hv) k hk
      (by simpa [BASE_PAGE_SIZE] using hkm)
  · simp only [BASE_PAGE_SIZE]
    exact ⟨hp, hs, hv⟩

/-- Witness for `mapGeneric_resolves`: maps `[0x1000, 0x3000)` to
`[0x3000, 0x5000)` from the empty root and resolves the second page. -/
theorem mapGeneric_resolves_witness :
    4096 % 4096 = 0 ∧ 12288 % 4096 = 0 ∧ 8192 % 4096 = 0 ∧
    4096 + 8192 ≤ 2 ^ 48 ∧
    mapGeneric emptyL0 4096 12288 8192 MapAction.readWriteKernel =
      .ok c1WitnessState ∧
    4096 < 8192 ∧
    resolveAddr c1WitnessState (4096 + 4096) = Option.some (12288 + 4096) := by
  refine ⟨by norm_num, by norm_num, by norm_num, by norm_num, rfl, by norm_num, ?_⟩
  exact mapGeneric_resolves emptyL0 c1WitnessState 4096 12288 8192
    MapAction.readWriteKernel 4096 (by norm_num) (by norm_num) (by norm_num)
    (by norm_num) rfl (by norm_num) (by norm_num)

set_option maxRecDepth 1000000 in
/-- Counterexample to C2: the scenario's size `0x4020_0000` is 1 GiB + 2 MiB,
so after the 1 GiB block the remaining 2 MiB is mapped by a single 2 MiB
block at L2, and no 4 KiB page descriptor is materialized at all (the claim
expects 512 of them). -/
theorem c2_no_l3_pages :
    mapFailureOf c2Run = Option.none ∧ l3PageCount c2State = 0 := by
  constructor
  · rfl
  · decide

set_option maxRecDepth 1000000 in
/-- C2 as amended: the scenario materializes exactly one 1 GiB block at L1
(at the descriptor path of `0x4000_0000`, with frame `0x8000_0000`, covering
`[0x4000_0000, 0x8000_0000)`) and exactly one 2 MiB block at L2 (for the
trailing 2 MiB, with frame `0xC000_0000`), no L3 page descriptors, and
`resolve_addr(0x4000_1000) == Some(0x8000_1000)`. -/
theorem c2_amended_scenario :
    mapFailureOf c2Run = Option.none ∧
    l1BlockCount c2State = 1 ∧
    l1EntryAt c2State 0x40000000 =
      Option.some (0x80000000, MapAction.readWriteKernel) ∧
    l2BlockCount c2State = 1 ∧
    l2EntryAt c2State 0x80000000 =
      Option.some (0xC0000000, MapAction.readWriteKernel) ∧
    l3PageCount c2State = 0 ∧
    resolveAddr c2State 0x40001000 = Option.some 0x80001000 := by
  refine ⟨rfl, by decide, by decide, by decide, by decide, by decide, by decide⟩

/-- First run for the C3 scenario: map 1 GiB at `0x4000_0000` from the empty
root, which installs a single 1 GiB block descriptor at L1. -/
def c3FirstRun : Except MapFailure L0Tab :=
  mapGeneric emptyL0 0x40000000 0x80000000 0x40000000 MapAction.readWriteKernel

/-- The state after `c3FirstRun`. -/
def c3State : L0Tab := (c3FirstRun.toOption).getD emptyL0

/-- Second run for the C3 scenario: re-map one 4 KiB page whose address is
covered by the existing 1 GiB leaf. -/
def c3SecondRun : Except MapFailure L0Tab :=
  mapGeneric c3State 0x40000000 0 4096 MapAction.readWriteKernel

set_option maxRecDepth 100000 in
/-- C3 failing input: after a 1 GiB block is mapped over
`[0x4000_0000, 0x8000_0000)`, re-mapping the 4 KiB page at `0x4000_0000`
does *not* reach any of the three panic sites of `map_generic`
(`blockConflict`, `tableConflict`, `mappingExists`).  The walk finds the L1
descriptor valid, skips table allocation, and `get_l2_table` `transmute`s
the 1 GiB block's frame (`0x8000_0000`) into an `L2Table`, after which the
code reads and writes that data frame as if it were a page table — no abort,
no diagnostic, arbitrary behaviour (modelled as `blockReinterpreted`). -/
theorem c3_remap_under_block_no_panic :
    mapFailureOf c3FirstRun = Option.none ∧
    mapFailureOf c3SecondRun = Option.some MapFailure.blockReinterpreted ∧
    MapFailure.blockReinterpreted ≠ MapFailure.blockConflict ∧
    MapFailure.blockReinterpreted ≠ MapFailure.tableConflict ∧
    MapFailure.blockReinterpreted ≠ MapFailure.mappingExists := by
  refine ⟨rfl, by decide, by decide, by decide, by decide⟩

/-- The single-quote character (written via its code point to keep the file
free of quote literals). -/
def qChar : Char := Char.ofNat 39

/-- The backslash character. -/
def bsChar : Char := Char.ofNat 92

/-- The newline character (the only character the `.` of the `KernelBinary`
regex does not match). -/
def nlChar : Char := Char.ofNat 10

/-- ASCII letter, as in the regex classes of `cmdline.rs`. -/
def isAlphaAsciiB (c : Char) : Bool :=
  (decide ('a' ≤ c) && decide (c ≤ 'z')) || (decide ('A' ≤ c) && decide (c ≤ 'Z'))

/-- ASCII digit. -/
def isDigitAsciiB (c : Char) : Bool := decide ('0' ≤ c) && decide (c ≤ '9')

/-- The `Ident` character class `[a-zA-Z0-9._-]` of `CmdToken`. -/
def isIdentCharB (c : Char) : Bool :=
  isAlphaAsciiB c || isDigitAsciiB c || c = '.' || c = '_' || c = '-'

/-- Length of the longest run of characters satisfying `p`. -/
def takeWhileLen (p : Char → Bool) : List Char → Nat
  | [] => 0
  | c :: rest => if p c then takeWhileLen p rest + 1 else 0

/-- Longest match of the `KernelBinary` regex `./[a-zA-Z]+` at the head of the
input (`.` is any character but newline). -/
def kernelBinaryLen : List Char → Nat
  | c :: d :: rest =>
    if c ≠ nlChar && d = '/' then
      if takeWhileLen isAlphaAsciiB rest = 0 then 0
      else takeWhileLen isAlphaAsciiB rest + 2
    else 0
  | _ => 0

/-- Match length of an exact `#[token]` string at the head of the input. -/
def keywordLen (kw : List Char) (cs : List Char) : Nat :=
  if kw.isPrefixOf cs then kw.length else 0

/-- Scan the body of a `LiteralString` after the opening quote: content
characters are anything but quote/backslash, plus the escapes
`\t`, `\u`, `\n`, `\'`; returns the length up to and including the closing
quote (the first unescaped quote, which is where the regex match ends). -/
def litScan : List Char → Option Nat
  | [] => Option.none
  | c :: rest =>
    if c = qChar then Option.some 1
    else if c = bsChar then
      match rest with
      | e :: rest2 =>
        if e = 't' || e = 'u' || e = 'n' || e = qChar then
          (litScan rest2).map (· + 2)
        else Option.none
      | [] => Option.none
    else (litScan rest).map (· + 1)

/-- Longest match of the `LiteralString` regex at the head of the input. -/
def literalLen : List Char → Nat
  | [] => 0
  | c :: rest =>
    if c = qChar then
      match litScan rest with
      | Option.some n => n + 1
      | Option.none => 0
    else 0

/-- The tokens of the `logos`-derived command-line lexer (`CmdToken`). -/
inductive CmdToken where
  | kernelBinary
  | bspOnly
  | test
  | log
  | mode
  | initBinary
  | initArgs
  | appArgs
  | ident
  | kvSeparator
  | literalString
  | error
deriving DecidableEq

/-- One step of the lexer: the maximal-munch match at the head of the input,
with `logos` priorities on ties (explicit priority 22 for `=`; `#[token]`
keywords beat the `Ident` regex; the `KernelBinary` regex beats `Ident`).
Returns `none` for the skipped whitespace pattern, and an `error` token of
length one when nothing matches. -/
def nextToken (cs : List Char) : Option CmdToken × Nat :=
  let lBsp := keywordLen (("bsp-only").data) cs
  let lTest := keywordLen (("test").data) cs
  let lLog := keywordLen (("log").data) cs
  let lMode := keywordLen (("mode").data) cs
  let lInit := keywordLen (("init").data) cs
  let lInitArgs := keywordLen (("initargs").data) cs
  let lApp := keywordLen (("appcmd").data) cs
  let lEq := keywordLen ['='] cs
  let lKB := kernelBinaryLen cs
  let lIdent := takeWhileLen isIdentCharB cs
  let lLit := literalLen cs
  let lSkip := takeWhileLen (fun c => c = ' ') cs
  let best := max lBsp (max lTest (max lLog (max lMode (max lInit
    (max lInitArgs (max lApp (max lEq (max lKB (max lIdent (max lLit lSkip))))))))))
  if best = 0 then (Option.some CmdToken.error, 1)
  else if lEq = best then (Option.some CmdToken.kvSeparator, 1)
  else if lBsp = best then (Option.some CmdToken.bspOnly, lBsp)
  else if lInitArgs = best then (Option.some CmdToken.initArgs, lInitArgs)
  else if lApp = best then (Option.some CmdToken.appArgs, lApp)
  else if lTest = best then (Option.some CmdToken.test, lTest)
  else if lMode = best then (Option.some CmdToken.mode, lMode)
  else if lInit = best then (Option.some CmdToken.initBinary, lInit)
  else if lLog = best then (Option.some CmdToken.log, lLog)
  else if lKB = best then (Option.some CmdToken.kernelBinary, lKB)
  else if lLit = best then (Option.some CmdToken.literalString, lLit)
  else if lIdent = best then (Option.some CmdToken.ident, lIdent)
  else (Option.none, lSkip)

/-- The lexer loop: repeatedly take the next token with its slice.  Every
step consumes at least one character, so `fuel = cs.length` suffices; the
fuel only makes the recursion structural. -/
def lexCmdAux : Nat → List Char → List (CmdToken × List Char)
  | 0, _ => []
  | _, [] => []
  | fuel+1, c :: rest =>
    match nextToken (c :: rest) with
    | (Option.some t, n) =>
        (t, (c :: rest).take (max n 1)) :: lexCmdAux fuel ((c :: rest).drop (max n 1))
    | (Option.none, n) => lexCmdAux fuel ((c :: rest).drop (max n 1))

/-- The command-line lexer. -/
def lexCmd (cs : List Char) : List (CmdToken × List Char) :=
  lexCmdAux cs.length cs

/-- Kernel execution mode (`cmdline::Mode`). -/
inductive Mode where
  | native
  | controller
  | client
deriving DecidableEq

/-- Model of `impl From<&str> for Mode`. -/
def Mode.ofString (s : String) : Mode :=
  if s = "native" then Mode.native
  else if s = "controller" then Mode.controller
  else if s = "client" then Mode.client
  else Mode.native

/-- Model of `cmdline::BootloaderArguments`. -/
structure BootloaderArguments where
  log_filter : String
  init_binary : String
  init_args : String
  app_args : String
  test : Option String
  bsp_only : Bool
  kgdb : Bool
  mode : Mode
deriving DecidableEq

/-- Model of `BootloaderArguments::default()`. -/
def defaultBootloaderArguments : BootloaderArguments :=
  { log_filter := "info", init_binary := "init", init_args := "",
    app_args := "", test := Option.none, bsp_only := false, kgdb := false,
    mode := Mode.native }

/-- The token-consuming state machine of `BootloaderArguments::from_str`
(cmdline.rs lines 150-247): `prev` remembers the last key token; error cases
log and continue without touching `prev` (except where the source resets it
to `Error`). -/
def parseTokens :
    List (CmdToken × List Char) → BootloaderArguments → CmdToken →
    BootloaderArguments
  | [], args, _ => args
  | (tok, slice) :: rest, args, prev =>
    match tok with
    | .kernelBinary => parseTokens rest args prev
    | .bspOnly => parseTokens rest { args with bsp_only := true } prev
    | .log => parseTokens rest args CmdToken.log
    | .mode => parseTokens rest args CmdToken.mode
    | .test => parseTokens rest args CmdToken.test
    | .initBinary => parseTokens rest args CmdToken.initBinary
    | .initArgs => parseTokens rest args CmdToken.initArgs
    | .appArgs => parseTokens rest args CmdToken.appArgs
    | .ident =>
      match prev with
      | .log =>
          parseTokens rest { args with log_filter := String.mk slice } CmdToken.error
      | .mode =>
          parseTokens rest { args with mode := Mode.ofString (String.mk slice) }
            CmdToken.error
      | .initBinary =>
          parseTokens rest { args with init_binary := String.mk slice } CmdToken.error
      | .initArgs =>
          parseTokens rest { args with init_args := String.mk slice } CmdToken.error
      | .appArgs =>
          parseTokens rest { args with app_args := String.mk slice } CmdToken.error
      | .test =>
          parseTokens rest { args with test := Option.some (String.mk slice) }
            CmdToken.error
      | _ => parseTokens rest args prev
    | .kvSeparator => parseTokens rest args prev
    | .literalString =>
      match prev with
      | .log =>
          parseTokens rest
            { args with log_filter := String.mk ((slice.drop 1).dropLast) }
            CmdToken.error
      | .initBinary =>
          parseTokens rest
            { args with init_binary := String.mk ((slice.drop 1).dropLast) }
            CmdToken.error
      | .initArgs =>
          parseTokens rest
            { args with init_args := String.mk ((slice.drop 1).dropLast) }
            CmdToken.error
      | .appArgs =>
          parseTokens rest
            { args with app_args := String.mk ((slice.drop 1).dropLast) }
            CmdToken.error
      | .test =>
          parseTokens rest
            { args with test := Option.some (String.mk ((slice.drop 1).dropLast)) }
            CmdToken.error
      | _ => parseTokens rest args prev
    | .error => parseTokens rest args prev

/-- Model of `BootloaderArguments::from_str` (the physical-to-kernel address
translation of the argument slice at its top is the identity on the string
contents and is omitted). -/
def fromStrModel (s : String) : BootloaderArguments :=
  parseTokens (lexCmd s.data) defaultBootloaderArguments CmdToken.error

/-- A single-quote string for building test inputs. -/
def c4Quote : String := String.mk [qChar]

/-- The C4 scenario command line with the quoted `appcmd` literal. -/
def c4Input : String :=
  ("./kernel log=warn init=dbbench.bin initargs=3 appcmd=") ++ c4Quote ++
  ("--threads=1 --benchmarks=fillseq,readrandom --reads=100000 --num=50000 --value_size=65535")
  ++ c4Quote

set_option maxRecDepth 100000 in
/-- C4: parsing the empty command line yields the defaults
`{log_filter:"info", init_binary:"init", init_args:"", app_args:"",
test:None, bsp_only:false, mode:Native}`, and parsing
`./kernel log=warn init=dbbench.bin initargs=3 appcmd=<quoted literal>`
yields `log_filter "warn"`, `init_binary "dbbench.bin"`, `init_args "3"`,
and `app_args` equal to the single-quoted literal with the quotes
stripped. -/
theorem cmdline_scenarios :
    fromStrModel ("") = defaultBootloaderArguments ∧
    defaultBootloaderArguments.log_filter = "info" ∧
    defaultBootloaderArguments.init_binary = "init" ∧
    defaultBootloaderArguments.init_args = "" ∧
    defaultBootloaderArguments.app_args = "" ∧
    defaultBootloaderArguments.test = Option.none ∧
    defaultBootloaderArguments.bsp_only = false ∧
    defaultBootloaderArguments.mode = Mode.native ∧
    fromStrModel c4Input =
      { log_filter := "warn", init_binary := "dbbench.bin", init_args := "3",
        app_args := "--threads=1 --benchmarks=fillseq,readrandom --reads=100000 --num=50000 --value_size=65535",
        test := Option.none, bsp_only := false, kgdb := false,
        mode := Mode.native } := by
  refine ⟨by decide, rfl, rfl, rfl, rfl, rfl, rfl, rfl, by decide⟩

/-- The RPC wire header.  Modelled from the spec: `RPCHeader` and `HDR_LEN`
live in `rpc/src/rpc.rs`, which is not among the sources; the spec's wire
format is `u64 client_id, u64 req_id, u64 pid, u8 msg_type, u8 reserved[7],
u64 msg_len`, hence a 40-byte header. -/
structure RPCHeader where
  client_id : Nat
  req_id : Nat
  pid : Nat
  msg_type : Nat
  msg_len : Nat
deriving DecidableEq

/-- Byte length of the wire header (see `RPCHeader` above). -/
def HDR_LEN : Nat := 40

/-- The state of `rpc::client::Client`: stored `client_id`, `req_id`, and the
reused `hdr` cell (its transport box is kept external). -/
structure RPCClientState where
  client_id : Nat
  req_id : Nat
  hdr : RPCHeader
deriving DecidableEq

/-- Outcome of `Client::call`: success, the `MalformedResponse` error, or a
failed `assert!`. -/
inductive CallOutcome where
  | ok
  | malformedResponse
  | panicked
deriving DecidableEq

/-- Everything observable about one `Client::call`: the request header handed
to `send_msg`, the outcome, and the client state afterwards. -/
structure CallResult where
  sent : RPCHeader
  outcome : CallOutcome
  post : RPCClientState
deriving DecidableEq

/-- Model of `Client::call` (client.rs lines 46-105).  The transport is modelled by
its observable behaviour: `resp` is the header that `recv_msg` stores into
the header cell, and `maxSend`/`maxRecv` are the transport limits checked by
the two length `assert!`s.  The request header keeps the cell's previous
`client_id` (the code never writes that field on send); a response whose
`client_id` or `req_id` differs from the stored ones returns
`MalformedResponse` before `req_id` is incremented; otherwise `req_id` is
incremented and, for the registration type 0, `client_id` is adopted from
the response. -/
def clientCall (c : RPCClientState) (pid rpc_id : Nat)
    (dataInLen dataOutLen : Nat) (maxSend maxRecv : Nat)
    (resp : RPCHeader) : CallResult :=
  if dataOutLen + HDR_LEN ≤ maxSend ∧ dataInLen + HDR_LEN ≤ maxRecv then
    let sent : RPCHeader :=
      { c.hdr with
          pid := pid, req_id := c.req_id, msg_type := rpc_id,
          msg_len := dataInLen }
    if resp.msg_len ≤ dataOutLen then
      if resp.client_id ≠ c.client_id ∨ resp.req_id ≠ c.req_id then
        { sent := sent, outcome := CallOutcome.malformedResponse,
          post := { c with hdr := resp } }
      else
        if rpc_id = 0 then
          { sent := sent, outcome := CallOutcome.ok,
            post := { client_id := resp.client_id, req_id := c.req_id + 1,
                      hdr := resp } }
        else
          { sent := sent, outcome := CallOutcome.ok,
            post := { c with req_id := c.req_id + 1, hdr := resp } }
    else
      { sent := sent, outcome := CallOutcome.panicked,
        post := { c with hdr := resp } }
  else
    { sent := c.hdr, outcome := CallOutcome.panicked, post := c }

/-- C5: every call sends the client's current `req_id` in the request header;
a response with a mismatched `client_id` or `req_id` yields
`MalformedResponse` and leaves the stored `req_id` unchanged; a matching
response increments `req_id` by exactly one. -/
theorem rpc_call_req_id (c : RPCClientState) (pid rpc_id : Nat)
    (dataInLen dataOutLen maxSend maxRecv : Nat) (resp : RPCHeader)
    (hsend : dataOutLen + HDR_LEN ≤ maxSend)
    (hrecv : dataInLen + HDR_LEN ≤ maxRecv)
    (hlen : resp.msg_len ≤ dataOutLen) :
    (clientCall c pid rpc_id dataInLen dataOutLen maxSend maxRecv resp).sent.req_id
        = c.req_id ∧
    ((resp.client_id ≠ c.client_id ∨ resp.req_id ≠ c.req_id) →
      (clientCall c pid rpc_id dataInLen dataOutLen maxSend maxRecv resp).outcome
          = CallOutcome.malformedResponse ∧
      (clientCall c pid rpc_id dataInLen dataOutLen maxSend maxRecv resp).post.req_id
          = c.req_id) ∧
    (resp.client_id = c.client_id → resp.req_id = c.req_id →
      (clientCall c pid rpc_id dataInLen dataOutLen maxSend maxRecv resp).outcome
          = CallOutcome.ok ∧
      (clientCall c pid rpc_id dataInLen dataOutLen maxSend maxRecv resp).post.req_id
          = c.req_id + 1) := by
  unfold clientCall
  rw [if_pos ⟨hsend, hrecv⟩, if_pos hlen]
  by_cases hm : resp.client_id ≠ c.client_id ∨ resp.req_id ≠ c.req_id
  · rw [if_pos hm]
    refine ⟨rfl, fun _ => ⟨rfl, rfl⟩, fun hc hr => ?_⟩
    cases hm with
    | inl h => exact absurd hc h
    | inr h => exact absurd hr h
  · rw [if_neg hm]
    by_cases h0 : rpc_id = 0
    · rw [if_pos h0]
      exact ⟨rfl, fun h => absurd h hm, fun _ _ => ⟨rfl, rfl⟩⟩
    · rw [if_neg h0]
      exact ⟨rfl, fun h => absurd h hm, fun _ _ => ⟨rfl, rfl⟩⟩

/-- Witness for `rpc_call_req_id`: a mismatched response (`client_id` 5
instead of 0) at a concrete client. -/
theorem rpc_call_req_id_witness :
    (0 + HDR_LEN ≤ 64) ∧ (0 + HDR_LEN ≤ 64) ∧
    ((⟨5, 0, 0, 1, 0⟩ : RPCHeader).msg_len ≤ 0) ∧
    ((clientCall ⟨0, 7, ⟨0, 0, 0, 0, 0⟩⟩ 3 1 0 0 64 64 ⟨5, 0, 0, 1, 0⟩).sent.req_id = 7 ∧
     (((⟨5, 0, 0, 1, 0⟩ : RPCHeader).client_id ≠ 0 ∨
       (⟨5, 0, 0, 1, 0⟩ : RPCHeader).req_id ≠ 7) →
       (clientCall ⟨0, 7, ⟨0, 0, 0, 0, 0⟩⟩ 3 1 0 0 64 64 ⟨5, 0, 0, 1, 0⟩).outcome
           = CallOutcome.malformedResponse ∧
       (clientCall ⟨0, 7, ⟨0, 0, 0, 0, 0⟩⟩ 3 1 0 0 64 64 ⟨5, 0, 0, 1, 0⟩).post.req_id = 7) ∧
     ((⟨5, 0, 0, 1, 0⟩ : RPCHeader).client_id = 0 →
      (⟨5, 0, 0, 1, 0⟩ : RPCHeader).req_id = 7 →
       (clientCall ⟨0, 7, ⟨0, 0, 0, 0, 0⟩⟩ 3 1 0 0 64 64 ⟨5, 0, 0, 1, 0⟩).outcome
           = CallOutcome.ok ∧
       (clientCall ⟨0, 7, ⟨0, 0, 0, 0, 0⟩⟩ 3 1 0 0 64 64 ⟨5, 0, 0, 1, 0⟩).post.req_id = 8)) :=
  ⟨by decide, by decide, by decide,
   rpc_call_req_id ⟨0, 7, ⟨0, 0, 0, 0, 0⟩⟩ 3 1 0 0 64 64 ⟨5, 0, 0, 1, 0⟩
     (by decide) (by decide) (by decide)⟩

theorem getD_set_self {α : Type} (l : List α) (i : Nat) (a d : α)
    (h : i < l.length) : (l.set i a).getD i d = a := by
  induction l generalizing i with
  | nil => simp at h
  | cons hd tl ih =>
    cases i with
    | zero => rfl
    | succ n =>
      simp only [List.set, List.getD, List.get?]
      have := ih n (by simpa using h)
      simpa [List.getD] using this

theorem getD_set_ne {α : Type} (l : List α) (i j : Nat) (a d : α)
    (h : i ≠ j) : (l.set i a).getD j d = l.getD j d := by
  induction l generalizing i j with
  | nil => simp [List.set]
  | cons hd tl ih =>
    cases i with
    | zero =>
      cases j with
      | zero => exact absurd rfl h
      | succ m => rfl
    | succ n =>
      cases j with
      | zero => rfl
      | succ m =>
        simp only [List.set, List.getD, List.get?]
        have := ih n m (by omega)
        simpa [List.getD] using this

/-- A hardware thread descriptor as tracked by the controller's per-client
state (`hw_threads` pairs it with an `in_use` flag). -/
structure HwThread where
  id : Nat
  node_id : Nat
deriving DecidableEq

/-- Default element for `getD` on thread vectors. -/
def dfltHwThread : HwThread × Bool := (⟨0, 0⟩, true)

/-- The decoded `RequestCoreReq`. -/
structure RequestCoreReq where
  pid : Nat
  new_pid : Bool
  entry_point : Nat
deriving DecidableEq

/-- The first-free scan of `handle_request_core` (request_core.rs lines
86-98): walk `hw_threads` in order and stop at the first entry whose
`in_use` flag is `false`. -/
def firstFree : List (HwThread × Bool) → Option (Nat × HwThread)
  | [] => Option.none
  | (thr, false) :: _ => Option.some (0, thr)
  | (_, true) :: rest => (firstFree rest).map (fun p => (p.1 + 1, p.2))

/-- Outcome of `handle_request_core` as encoded into the reply buffer. -/
inductive RCOutcome where
  | ok (gtid ret2 : Nat)
  | err
  | badPayload
  | panicNoFree
deriving DecidableEq

/-- Model of `handle_request_core` (request_core.rs lines 61-134).  External
collaborators are parameters: `mid` is the machine id chosen by
`dcm_resource_alloc`, and `allocCore` is the success predicate of
`KernelNode::allocate_core_to_process` for the chosen `(gtid, node)`.
An undecodable payload answers `MalformedRequest`; no free thread hits the
`expect` (`panicNoFree`); otherwise the first free thread is flipped to
in-use (also when the allocation later fails: the source leaves the flip in
place, see its `TODO(rackscale, error-handling)`), and on success
`(gtid, 0)` is encoded into the response.  The `new_pid` file-system
bookkeeping does not affect the thread state or the response value. -/
def handleRequestCore (req : Option RequestCoreReq) (mid : Nat)
    (allocCore : Nat → Nat → Bool)
    (st : Nat → List (HwThread × Bool)) :
    (Nat → List (HwThread × Bool)) × RCOutcome :=
  match req with
  | Option.none => (st, RCOutcome.badPayload)
  | Option.some _ =>
    match firstFree (st mid) with
    | Option.none => (st, RCOutcome.panicNoFree)
    | Option.some (i, thr) =>
      if allocCore thr.id thr.node_id then
        (Function.update st mid ((st mid).set i (thr, true)), RCOutcome.ok thr.id 0)
      else
        (Function.update st mid ((st mid).set i (thr, true)), RCOutcome.err)

theorem firstFree_spec :
    ∀ (l : List (HwThread × Bool)) (i : Nat) (thr : HwThread),
      firstFree l = Option.some (i, thr) →
      i < l.length ∧ l.getD i dfltHwThread = (thr, false) ∧
      ∀ j, j < i → (l.getD j dfltHwThread).2 = true := by
  intro l
  induction l with
  | nil =>
    intro i thr h
    simp [firstFree] at h
  | cons hd tl ih =>
    intro i thr h
    obtain ⟨thr0, used0⟩ := hd
    cases used0 with
    | false =>
      simp only [firstFree, Option.some.injEq, Prod.mk.injEq] at h
      obtain ⟨hi, hthr⟩ := h
      subst hi
      subst hthr
      refine ⟨by simp, rfl, ?_⟩
      intro j hj
      omega
    | true =>
      simp only [firstFree] at h
      cases hff : firstFree tl with
      | none =>
        rw [hff] at h
        simp at h
      | some p =>
        rw [hff] at h
        obtain ⟨p1, p2⟩ := p
        simp only [Option.map, Option.some.injEq, Prod.mk.injEq] at h
        obtain ⟨hi, hthr⟩ := h
        subst hi
        subst hthr
        obtain ⟨ih1, ih2, ih3⟩ := ih p1 p2 hff
        refine ⟨by simpa using ih1, by simpa [List.getD] using ih2, ?_⟩
        intro j hj
        cases j with
        | zero => rfl
        | succ m =>
          have := ih3 m (by omega)
          simpa [List.getD] using this

/-- C6: given a decodable request, the controller's `request_core` handler
scans the DCM-selected client's `hw_threads` in order, picks the first entry
with `in_use == false`, flips it to in-use, and on allocation success
encodes `(gtid, 0)` where `gtid` is that first free thread's id; with
pairwise-distinct thread ids, re-issuing the identical request (with the
same DCM choice) returns a different `gtid`. -/
theorem request_core_first_free
    (st : Nat → List (HwThread × Bool)) (mid : Nat) (req : RequestCoreReq)
    (allocCore : Nat → Nat → Bool)
    (halloc : ∀ g n, allocCore g n = true)
    (hdistinct : ∀ a b, a < (st mid).length → b < (st mid).length → a ≠ b →
      ((st mid).getD a dfltHwThread).1.id ≠ ((st mid).getD b dfltHwThread).1.id)
    (i : Nat) (thr : HwThread)
    (hscan : firstFree (st mid) = Option.some (i, thr)) :
    (handleRequestCore (Option.some req) mid allocCore st).2
        = RCOutcome.ok thr.id 0 ∧
    (handleRequestCore (Option.some req) mid allocCore st).1 mid
        = (st mid).set i (thr, true) ∧
    (st mid).getD i dfltHwThread = (thr, false) ∧
    (∀ j, j < i → ((st mid).getD j dfltHwThread).2 = true) ∧
    (∀ g2 n2,
      (handleRequestCore (Option.some req) mid allocCore
        (handleRequestCore (Option.some req) mid allocCore st).1).2
          = RCOutcome.ok g2 n2 →
      g2 ≠ thr.id) := by
  obtain ⟨hlen, hgetD, hbefore⟩ := firstFree_spec (st mid) i thr hscan
  have hrun1 :
      handleRequestCore (Option.some req) mid allocCore st
        = (Function.update st mid ((st mid).set i (thr, true)),
           RCOutcome.ok thr.id 0) := by
    simp only [handleRequestCore, hscan, halloc thr.id thr.node_id, if_true]
  refine ⟨by rw [hrun1], ?_, hgetD, hbefore, ?_⟩
  · rw [hrun1]
    exact Function.update_same _ _ _
  · intro g2 n2 hrun2
    rw [hrun1] at hrun2
    simp only [handleRequestCore] at hrun2
    rw [Function.update_same] at hrun2
    cases hscan2 : firstFree ((st mid).set i (thr, true)) with
    | none =>
      rw [hscan2] at hrun2
      simp at hrun2
    | some p =>
      obtain ⟨j, thr2⟩ := p
      rw [hscan2] at hrun2
      simp only [halloc thr2.id thr2.node_id, if_true, RCOutcome.ok.injEq] at hrun2
      obtain ⟨hg2, _⟩ := hrun2
      subst hg2
      obtain ⟨hlen2, hgetD2, _⟩ := firstFree_spec _ j thr2 hscan2
      have hji : j ≠ i := by
        intro hji
        subst hji
        rw [getD_set_self _ _ _ _ hlen] at hgetD2
        simp at hgetD2
      rw [getD_set_ne _ _ _ _ _ (fun he => hji he.symm)] at hgetD2
      have hjlen : j < (st mid).length := by
        simpa using hlen2
      have hne := hdistinct j i hjlen hlen hji
      rw [hgetD2, hgetD] at hne
      exact hne

/-- Witness for `request_core_first_free`: two free threads with ids 7 and 8;
the first request takes thread 7, the second therefore cannot return 7. -/
theorem request_core_first_free_witness :
    ((fun _ => [((⟨7, 0⟩ : HwThread), false), ((⟨8, 0⟩ : HwThread), false)])
        : Nat → List (HwThread × Bool)) 0 =
      [((⟨7, 0⟩ : HwThread), false), ((⟨8, 0⟩ : HwThread), false)] ∧
    firstFree [((⟨7, 0⟩ : HwThread), false), ((⟨8, 0⟩ : HwThread), false)]
        = Option.some (0, (⟨7, 0⟩ : HwThread)) ∧
    (handleRequestCore (Option.some ⟨7, true, 0x2000⟩) 0 (fun _ _ => true)
        (fun _ => [((⟨7, 0⟩ : HwThread), false), ((⟨8, 0⟩ : HwThread), false)])).2
      = RCOutcome.ok 7 0 ∧
    (∀ g2 n2,
      (handleRequestCore (Option.some ⟨7, true, 0x2000⟩) 0 (fun _ _ => true)
        (handleRequestCore (Option.some ⟨7, true, 0x2000⟩) 0 (fun _ _ => true)
          (fun _ => [((⟨7, 0⟩ : HwThread), false), ((⟨8, 0⟩ : HwThread), false)])).1).2
          = RCOutcome.ok g2 n2 →
      g2 ≠ 7) := by
  have h := request_core_first_free
    (fun _ => [((⟨7, 0⟩ : HwThread), false), ((⟨8, 0⟩ : HwThread), false)])
    0 ⟨7, true, 0x2000⟩ (fun _ _ => true) (fun _ _ => rfl)
    (by
      intro a b ha hb hne
      have ha2 : a < 2 := by simpa using ha
      have hb2 : b < 2 := by simpa using hb
      interval_cases a <;> interval_cases b <;>
        first
        | exact absurd rfl hne
        | decide)
    0 ⟨7, 0⟩ (by decide)
  exact ⟨rfl, by decide, h.1, h.2.2.2.2⟩

/-- The attribute bits that `MapAction::set_l3_entry_rights` (vspace.rs lines
23-56) programs into an L3 descriptor: the builder chain starts from
read-only, no user or kernel execution, normal memory, and the match then
widens it.  Note the source leaves `.read_write()` commented out in the
`ReadWriteExecute*` arms. -/
structure L3Rights where
  accessible : Bool
  writable : Bool
  userExec : Bool
  privExec : Bool
  deviceMemory : Bool
deriving DecidableEq

/-- Model of `MapAction::set_l3_entry_rights`. -/
def set_l3_entry_rights (r : MapAction) : L3Rights :=
  match r with
  | MapAction.none =>
      { accessible := false, writable := false, userExec := false,
        privExec := false, deviceMemory := false }
  | MapAction.readUser =>
      { accessible := true, writable := false, userExec := false,
        privExec := false, deviceMemory := false }
  | MapAction.readKernel =>
      { accessible := true, writable := false, userExec := false,
        privExec := false, deviceMemory := false }
  | MapAction.readWriteUser =>
      { accessible := true, writable := true, userExec := false,
        privExec := false, deviceMemory := false }
  | MapAction.readWriteKernel =>
      { accessible := true, writable := true, userExec := false,
        privExec := false, deviceMemory := false }
  | MapAction.readExecuteKernel =>
      { accessible := true, writable := false, userExec := false,
        privExec := true, deviceMemory := false }
  | MapAction.readExecuteUser =>
      { accessible := true, writable := false, userExec := true,
        privExec := false, deviceMemory := false }
  | MapAction.readWriteExecuteUser =>
      { accessible := true, writable := false, userExec := true,
        privExec := false, deviceMemory := false }
  | MapAction.readWriteExecuteKernel =>
      { accessible := true, writable := false, userExec := false,
        privExec := true, deviceMemory := false }
  | MapAction.deviceMemoryKernel =>
      { accessible := true, writable := true, userExec := false,
        privExec := false, deviceMemory := true }

/-- The regions the boot loader maps for the init stack. -/
structure InitStackLayout where
  guardLo : Nat
  guardHi : Nat
  stackLo : Nat
  stackHi : Nat
  guardRights : MapAction
  stackRights : MapAction
deriving DecidableEq

/-- The init-stack allocation of `uefi_start` (main.rs lines 230-252):
`stack_pages = 768` pages are allocated as one region; the first page is the
protector, mapped `ReadUser` (with the source's TODO that it should be
`None`), and the remaining `stack_pages - 1` pages are the stack, mapped
`ReadWriteKernel`.  Addresses are the physical ones; the vspace maps them
identically (plus the fixed kernel offset). -/
def initStackLayout (stackRegion : Nat) : InitStackLayout :=
  { guardLo := stackRegion,
    guardHi := stackRegion + BASE_PAGE_SIZE,
    stackLo := stackRegion + BASE_PAGE_SIZE,
    stackHi := stackRegion + BASE_PAGE_SIZE + (768 - 1) * BASE_PAGE_SIZE,
    guardRights := MapAction.readUser,
    stackRights := MapAction.readWriteKernel }

/-- Counterexample to C7: the loader allocates 768 pages in total
(guard included), so the writable stack region spans 767 pages, not 768. -/
theorem c7_stack_span_767 :
    ((initStackLayout 0x1000000).stackHi - (initStackLayout 0x1000000).stackLo)
        / BASE_PAGE_SIZE = 767 ∧ (767 : Nat) ≠ 768 := by
  constructor
  · show (0x1000000 + 4096 + (768 - 1) * 4096 - (0x1000000 + 4096)) / 4096 = 767
    omega
  · omega

/-- C7 as amended: the boot loader allocates 768 pages in total for the init
stack; the first page is the guard, mapped `ReadUser` whose L3 encoding
forbids writing; the remaining 767 pages are the stack, mapped
`ReadWriteKernel` (writable); guard and stack are contiguous and together
span exactly 768 pages, so the region mapped writable spans exactly 767
pages. -/
theorem init_stack_layout_amended (base : Nat) :
    (initStackLayout base).guardLo = base ∧
    (initStackLayout base).guardHi = base + BASE_PAGE_SIZE ∧
    (initStackLayout base).stackLo = (initStackLayout base).guardHi ∧
    (initStackLayout base).stackHi = base + 768 * BASE_PAGE_SIZE ∧
    (initStackLayout base).stackHi - (initStackLayout base).stackLo
        = 767 * BASE_PAGE_SIZE ∧
    (initStackLayout base).guardRights = MapAction.readUser ∧
    (set_l3_entry_rights MapAction.readUser).writable = false ∧
    (initStackLayout base).stackRights = MapAction.readWriteKernel ∧
    (set_l3_entry_rights MapAction.readWriteKernel).writable = true := by
  refine ⟨rfl, rfl, by simp only [initStackLayout],
    by show base + 4096 + (768 - 1) * 4096 = base + 768 * 4096; omega,
    by show base + 4096 + (768 - 1) * 4096 - (base + 4096) = 767 * 4096; omega,
    rfl, rfl, rfl, rfl⟩

/-- The save area, reduced to the fields `handle_generic_exception` copies
(`rsp`, `rip`, `rflags`) plus `others`, standing for the GPR/FX state that
the assembly stub stores and the dispatcher leaves untouched. -/
structure SaveArea where
  rsp : Nat
  rip : Nat
  rflags : Nat
  others : Nat
deriving DecidableEq

/-- Model of `ExceptionArguments` as pushed by the ISR stub (irq.rs lines 176-184). -/
structure ExceptionArguments where
  vector : Nat
  exception : Nat
  rip : Nat
  cs : Nat
  rflags : Nat
  rsp : Nat
  ss : Nat
deriving DecidableEq

/-- The vcpu control block of the current process.  Modelled from the spec:
`VirtualCpu::upcalls_disabled`/`disable_upcalls` live in the `kpi` crate,
which is not among the sources; the spec says upcalls are disabled when the
disabled flag is set or the faulting pc lies in the disabled window, so the
predicate is kept abstract as a function of the pc. -/
structure VCpuCtl where
  upcallsDisabledAt : Nat → Bool
  isDisabled : Bool
  enabledState : SaveArea

/-- The slice of process state the dispatcher consults. -/
structure ProcessState where
  vcpu_ctl : Option VCpuCtl

/-- How the dispatcher resumes: restore from the current save area, or enter
the process upcall entry with `(vector, error_code)`; `panicked` is the
`assert!(a.vector < 256)`. -/
inductive ResumeHandleKind where
  | restoreCurrentSaveArea
  | upcall (vector exception : Nat)
  | panicked
deriving DecidableEq

/-- Model of `disable_upcalls` on the vcpu, when the process has one. -/
def disableUpcalls (p : ProcessState) : ProcessState :=
  match p.vcpu_ctl with
  | Option.none => p
  | Option.some v => { vcpu_ctl := Option.some { v with isDisabled := true } }

/-- Store the current save area into the vcpu's `enabled_state`
(the `copy_nonoverlapping` on the upcall path). -/
def storeEnabledState (p : ProcessState) (sa : SaveArea) : ProcessState :=
  match p.vcpu_ctl with
  | Option.none => p
  | Option.some v => { vcpu_ctl := Option.some { v with enabledState := sa } }

/-- The condition of the `was_disabled` branch: `map_or(true, ...)` — no
vcpu counts as disabled. -/
def upcallsOff (p : ProcessState) (pc : Nat) : Bool :=
  match p.vcpu_ctl with
  | Option.none => true
  | Option.some v => v.upcallsDisabledAt pc

/-- Model of `handle_generic_exception` (irq.rs lines 206-258, the resume-decision
prefix): assert the vector, copy `rsp`/`rip`/`rflags` from the pushed
arguments into `CURRENT_SAVE_AREA`, then consult the process: without a
vcpu, or when upcalls are disabled at the just-copied pc
(`CURRENT_SAVE_AREA.rip`, i.e. `a.rip`), resume from the current save area;
otherwise copy the save area into the vcpu's enabled state, disable
upcalls, and build the upcall resume handle. -/
def handle_generic_exception (a : ExceptionArguments) (csa : SaveArea)
    (p : ProcessState) : SaveArea × ProcessState × ResumeHandleKind :=
  if a.vector < 256 then
    if upcallsOff p a.rip then
      ({ csa with rsp := a.rsp, rip := a.rip, rflags := a.rflags },
       disableUpcalls p,
       ResumeHandleKind.restoreCurrentSaveArea)
    else
      ({ csa with rsp := a.rsp, rip := a.rip, rflags := a.rflags },
       storeEnabledState (disableUpcalls p)
         { csa with rsp := a.rsp, rip := a.rip, rflags := a.rflags },
       ResumeHandleKind.upcall a.vector a.exception)
  else (csa, p, ResumeHandleKind.panicked)

/-- C8: on every exception the dispatcher first copies `rsp`, `rip` and
`rflags` from the pushed `ExceptionArguments` into `CURRENT_SAVE_AREA`, and
when the current process's upcalls are disabled at the faulting pc
(including the no-vcpu case) it builds the resume handle from the current
save area rather than the process upcall entry. -/
theorem handle_generic_exception_disabled (a : ExceptionArguments)
    (csa : SaveArea) (p : ProcessState) (hv : a.vector < 256) :
    (handle_generic_exception a csa p).1.rsp = a.rsp ∧
    (handle_generic_exception a csa p).1.rip = a.rip ∧
    (handle_generic_exception a csa p).1.rflags = a.rflags ∧
    (upcallsOff p a.rip = true →
      (handle_generic_exception a csa p).2.2
        = ResumeHandleKind.restoreCurrentSaveArea) := by
  unfold handle_generic_exception
  rw [if_pos hv]
  cases hoff : upcallsOff p a.rip with
  | true =>
    exact ⟨rfl, rfl, rfl, fun _ => rfl⟩
  | false =>
    exact ⟨rfl, rfl, rfl, fun hoff2 => Bool.noConfusion hoff2⟩

/-- Witness for `handle_generic_exception_disabled`: a page fault (vector
0xe) with no current vcpu. -/
theorem handle_generic_exception_disabled_witness :
    (14 : Nat) < 256 ∧
    ((handle_generic_exception ⟨14, 2, 11, 8, 518, 99, 0⟩ ⟨0, 0, 0, 5⟩
        ⟨Option.none⟩).1.rsp = 99 ∧
     (handle_generic_exception ⟨14, 2, 11, 8, 518, 99, 0⟩ ⟨0, 0, 0, 5⟩
        ⟨Option.none⟩).1.rip = 11 ∧
     (handle_generic_exception ⟨14, 2, 11, 8, 518, 99, 0⟩ ⟨0, 0, 0, 5⟩
        ⟨Option.none⟩).1.rflags = 518 ∧
     (upcallsOff ⟨Option.none⟩ 11 = true →
       (handle_generic_exception ⟨14, 2, 11, 8, 518, 99, 0⟩ ⟨0, 0, 0, 5⟩
          ⟨Option.none⟩).2.2 = ResumeHandleKind.restoreCurrentSaveArea)) :=
  ⟨by decide,
   handle_generic_exception_disabled ⟨14, 2, 11, 8, 518, 99, 0⟩ ⟨0, 0, 0, 5⟩
     ⟨Option.none⟩ (by decide)⟩

/-- The handler-table size (`IDT_SIZE`). -/
def IDT_SIZE : Nat := 256

/-- Model of `register_handler` (irq.rs lines 288-300): vectors beyond the table just
log and return; in-range vectors replace the one entry. -/
def register_handler {α : Type} (handlers : List α) (vector : Nat) (h : α) :
    List α :=
  if vector > IDT_SIZE - 1 then handlers
  else handlers.set vector h

/-- C10: `register_handler` with a vector above 255 returns without error
and leaves the 256-entry table unchanged; with a vector in `[0, 256)` it
replaces exactly that entry and leaves every other entry unchanged. -/
theorem register_handler_frame {α : Type} (handlers : List α) (vector : Nat)
    (h : α) (d : α) (hlen : handlers.length = IDT_SIZE) :
    (vector > 255 → register_handler handlers vector h = handlers) ∧
    (vector ≤ 255 →
      (register_handler handlers vector h).getD vector d = h ∧
      (∀ w, w ≠ vector →
        (register_handler handlers vector h).getD w d = handlers.getD w d) ∧
      (register_handler handlers vector h).length = handlers.length) := by
  constructor
  · intro hgt
    unfold register_handler
    rw [if_pos]
    simpa [IDT_SIZE] using hgt
  · intro hle
    have hnot : ¬ vector > IDT_SIZE - 1 := by
      simp only [IDT_SIZE]
      omega
    unfold register_handler
    rw [if_neg hnot]
    refine ⟨?_, ?_, by simp⟩
    · apply getD_set_self
      rw [hlen]
      simp only [IDT_SIZE]
      omega
    · intro w hw
      exact getD_set_ne _ _ _ _ _ (fun he => hw he.symm)

/-- Witness for `register_handler_frame`: a 256-entry table of zeros;
vector 300 is ignored, vector 3 is replaced and vector 5 untouched. -/
theorem register_handler_frame_witness :
    (List.replicate 256 (0 : Nat)).length = IDT_SIZE ∧
    register_handler (List.replicate 256 (0 : Nat)) 300 7
      = List.replicate 256 0 ∧
    (register_handler (List.replicate 256 (0 : Nat)) 3 7).getD 3 0 = 7 ∧
    (register_handler (List.replicate 256 (0 : Nat)) 3 7).getD 5 0
      = (List.replicate 256 (0 : Nat)).getD 5 0 :=
  ⟨by rw [List.length_replicate]; rfl,
   (register_handler_frame (List.replicate 256 (0 : Nat)) 300 7 0
      (by rw [List.length_replicate]; rfl)).1 (by decide),
   ((register_handler_frame (List.replicate 256 (0 : Nat)) 3 7 0
      (by rw [List.length_replicate]; rfl)).2 (by decide)).1,
   ((register_handler_frame (List.replicate 256 (0 : Nat)) 3 7 0
      (by rw [List.length_replicate]; rfl)).2 (by decide)).2.1 5 (by decide)⟩

/-- Per-page access rights as seen by the debugger's page-table walk.
Modelled from the spec: the rights type with `is_readable`/`is_writable`/
`is_executable` lives in the x86_64 vspace module, which is not among the
sources. -/
structure PageRights where
  readable : Bool
  writable : Bool
  executable : Bool
deriving DecidableEq

/-- The byte loop of `KernelDebugger::write_addrs` (gdb/mod.rs lines
747-794).  `pt` is `ReadOnlyPageTable::current().resolve` (`none` =
unmapped), `inR` is `VADDR_RANGE.contains`; note the source checks the
range of `start_addr` (not `start_addr + i`) and runs the page checks only
at `i = 0` and at page boundaries, writing each byte right after its
(possible) check — so bytes before a denied page stay written. -/
def gdbWriteLoop (pt : Nat → Option (Nat × PageRights)) (inR : Nat → Bool)
    (start : Nat) : List Nat → Nat → (Nat → Nat) → ((Nat → Nat) × Bool)
  | [], _, mem => (mem, true)
  | b :: rest, i, mem =>
    if i = 0 ∨ (start + i) % BASE_PAGE_SIZE = 0 then
      if inR start then
        match pt (start + i) with
        | Option.some (_, r) =>
          if r.executable then (mem, false)
          else if r.writable then
            gdbWriteLoop pt inR start rest (i + 1)
              (Function.update mem (start + i) b)
          else (mem, false)
        | Option.none => (mem, false)
      else (mem, false)
    else
      gdbWriteLoop pt inR start rest (i + 1) (Function.update mem (start + i) b)

/-- Model of `KernelDebugger::write_addrs`: final memory and success flag
(`false` = the non-fatal `TargetError::NonFatal`). -/
def gdbWriteAddrs (pt : Nat → Option (Nat × PageRights)) (inR : Nat → Bool)
    (mem : Nat → Nat) (start : Nat) (data : List Nat) : (Nat → Nat) × Bool :=
  gdbWriteLoop pt inR start data 0 mem

/-- The per-position write check: range of `start`, mapped, not executable,
writable. -/
def gdbWriteCheckOk (pt : Nat → Option (Nat × PageRights)) (inR : Nat → Bool)
    (start i : Nat) : Bool :=
  inR start &&
    (match pt (start + i) with
     | Option.some (_, r) => !r.executable && r.writable
     | Option.none => false)

/-- All write checks at the boundary positions of `[i, i + n)` pass. -/
def gdbWriteChecksOk (pt : Nat → Option (Nat × PageRights)) (inR : Nat → Bool)
    (start : Nat) : Nat → Nat → Bool
  | _, 0 => true
  | i, n+1 =>
    (if i = 0 ∨ (start + i) % BASE_PAGE_SIZE = 0 then
       gdbWriteCheckOk pt inR start i
     else true) &&
    gdbWriteChecksOk pt inR start (i + 1) n

/-- The byte loop of `KernelDebugger::read_addrs` (lines 706-732): check
readability at page boundaries, collect the bytes. -/
def gdbReadLoop (pt : Nat → Option (Nat × PageRights)) (mem : Nat → Nat)
    (start : Nat) : Nat → Nat → Option (List Nat)
  | 0, _ => Option.some []
  | n+1, i =>
    if i = 0 ∨ (start + i) % BASE_PAGE_SIZE = 0 then
      match pt (start + i) with
      | Option.some (_, r) =>
        if r.readable then
          (gdbReadLoop pt mem start n (i + 1)).map (fun l => mem (start + i) :: l)
        else Option.none
      | Option.none => Option.none
    else (gdbReadLoop pt mem start n (i + 1)).map (fun l => mem (start + i) :: l)

/-- Model of `KernelDebugger::read_addrs` (lines 692-734): the range of `start` is
checked before the loop; `none` is the non-fatal denial.  Reading never
writes memory (the model returns only the collected bytes). -/
def gdbReadAddrs (pt : Nat → Option (Nat × PageRights)) (inR : Nat → Bool)
    (mem : Nat → Nat) (start : Nat) (n : Nat) : Option (List Nat) :=
  if inR start then gdbReadLoop pt mem start n 0 else Option.none

/-- The per-position read check: mapped and readable. -/
def gdbReadCheckOk (pt : Nat → Option (Nat × PageRights)) (start i : Nat) :
    Bool :=
  match pt (start + i) with
  | Option.some (_, r) => r.readable
  | Option.none => false

/-- All read checks at the boundary positions of `[i, i + n)` pass. -/
def gdbReadChecksOk (pt : Nat → Option (Nat × PageRights)) (start : Nat) :
    Nat → Nat → Bool
  | _, 0 => true
  | i, n+1 =>
    (if i = 0 ∨ (start + i) % BASE_PAGE_SIZE = 0 then gdbReadCheckOk pt start i
     else true) &&
    gdbReadChecksOk pt start (i + 1) n

theorem gdbWriteLoop_snd (pt : Nat → Option (Nat × PageRights))
    (inR : Nat → Bool) (start : Nat) :
    ∀ (data : List Nat) (i : Nat) (mem : Nat → Nat),
      (gdbWriteLoop pt inR start data i mem).2
        = gdbWriteChecksOk pt inR start i data.length := by
  intro data
  induction data with
  | nil =>
    intro i mem
    rfl
  | cons b rest ih =>
    intro i mem
    simp only [gdbWriteLoop, gdbWriteChecksOk, List.length_cons]
    by_cases hb : i = 0 ∨ (start + i) % BASE_PAGE_SIZE = 0
    · rw [if_pos hb, if_pos hb]
      by_cases hr : inR start = true
      · cases hpt : pt (start + i) with
        | none => simp [gdbWriteCheckOk, hr, hpt]
        | some pr =>
          obtain ⟨pa, r⟩ := pr
          by_cases hex : r.executable = true
          · simp [gdbWriteCheckOk, hr, hpt, hex]
          · simp only [Bool.not_eq_true] at hex
            by_cases hw : r.writable = true
            · simp [gdbWriteCheckOk, hr, hpt, hex, hw, ih]
            · simp only [Bool.not_eq_true] at hw
              simp [gdbWriteCheckOk, hr, hpt, hex, hw]
      · simp only [Bool.not_eq_true] at hr
        simp [gdbWriteCheckOk, hr]
    · rw [if_neg hb, if_neg hb]
      simp [ih]

theorem gdbReadLoop_isSome (pt : Nat → Option (Nat × PageRights))
    (mem : Nat → Nat) (start : Nat) :
    ∀ (n i : Nat),
      (gdbReadLoop pt mem start n i).isSome = gdbReadChecksOk pt start i n := by
  intro n
  induction n with
  | zero =>
    intro i
    rfl
  | succ m ih =>
    intro i
    simp only [gdbReadLoop, gdbReadChecksOk]
    by_cases hb : i = 0 ∨ (start + i) % BASE_PAGE_SIZE = 0
    · rw [if_pos hb, if_pos hb]
      cases hpt : pt (start + i) with
      | none => simp [gdbReadCheckOk, hpt]
      | some pr =>
        obtain ⟨pa, r⟩ := pr
        by_cases hrd : r.readable = true
        · simp [gdbReadCheckOk, hpt, hrd, ih]
        · simp only [Bool.not_eq_true] at hrd
          simp [gdbReadCheckOk, hpt, hrd]
    · rw [if_neg hb, if_neg hb]
      simp [ih]

/-- Two-page table for the C9 counterexample: page 0 is mapped
read-write/no-exec, page 1 is mapped read-only/executable, everything else
unmapped. -/
def c9pt : Nat → Option (Nat × PageRights) := fun va =>
  if va < 4096 then Option.some (va, ⟨true, true, false⟩)
  else if va < 8192 then Option.some (va, ⟨true, false, true⟩)
  else Option.none

/-- A stand-in for `VADDR_RANGE.contains` covering both pages. -/
def c9inR : Nat → Bool := fun va => va < 65536

/-- Counterexample to C9: writing two bytes starting at the last byte of the
writable page is denied (the second byte's page is executable), yet the
first byte has already been written — a denied request is *not* free of
modifications. -/
theorem c9_denied_write_modifies :
    (gdbWriteAddrs c9pt c9inR (fun _ => 0) 4095 [7, 7]).2 = false ∧
    (gdbWriteAddrs c9pt c9inR (fun _ => 0) 4095 [7, 7]).1 4095 = 7 ∧
    ((fun _ => (0 : Nat)) 4095 : Nat) ≠ 7 := by
  refine ⟨by decide, by decide, by decide⟩

/-- C9 as amended: a debugger memory write is denied with a non-fatal error
(`false`/`None`, never a crash) exactly when some checked position fails —
the start address out of the valid range, or a touched page unmapped,
executable, or not writable (checks run at the first byte and at every page
boundary); a denial at the very first check leaves memory unmodified (bytes
of pages validated earlier in the same request may however already have
been written, see the counterexample); reads are denied analogously for an
out-of-range start or an unreadable/unmapped page, and never modify
memory. -/
theorem gdb_mem_access_amended (pt : Nat → Option (Nat × PageRights))
    (inR : Nat → Bool) (mem : Nat → Nat) (start : Nat) (data : List Nat)
    (n : Nat) :
    ((gdbWriteAddrs pt inR mem start data).2 = true ↔
      gdbWriteChecksOk pt inR start 0 data.length = true) ∧
    (data ≠ [] → gdbWriteCheckOk pt inR start 0 = false →
      gdbWriteAddrs pt inR mem start data = (mem, false)) ∧
    ((gdbReadAddrs pt inR mem start n).isSome = true ↔
      (inR start && gdbReadChecksOk pt start 0 n) = true) := by
  refine ⟨?_, ?_, ?_⟩
  · rw [gdbWriteAddrs, gdbWriteLoop_snd]
  · intro hne hchk
    cases data with
    | nil => exact absurd rfl hne
    | cons b rest =>
      simp only [gdbWriteAddrs, gdbWriteLoop]
      rw [if_pos (Or.inl trivial)]
      by_cases hr : inR start = true
      · cases hpt : pt (start + 0) with
        | none => simp [hr, hpt]
        | some pr =>
          obtain ⟨pa, r⟩ := pr
          by_cases hex : r.executable = true
          · simp [hr, hpt, hex]
          · simp only [Bool.not_eq_true] at hex
            by_cases hw : r.writable = true
            · exfalso
              simp only [Nat.add_zero] at hpt
              simp [gdbWriteCheckOk, hr, hpt, hex, hw] at hchk
            · simp only [Bool.not_eq_true] at hw
              simp [hr, hpt, hex, hw]
      · simp only [Bool.not_eq_true] at hr
        simp [hr]
  · unfold gdbReadAddrs
    by_cases hr : inR start = true
    · rw [if_pos hr, gdbReadLoop_isSome, hr]
      simp
    · simp only [Bool.not_eq_true] at hr
      rw [hr]
      simp

/-- Witness for `gdb_mem_access_amended`: at the counterexample inputs, the
denial at the first checked page (start out of range) leaves memory
untouched. -/
theorem gdb_mem_access_amended_witness :
    ([(7 : Nat)] ≠ []) ∧
    gdbWriteCheckOk c9pt c9inR 70000 0 = false ∧
    gdbWriteAddrs c9pt c9inR (fun _ => 0) 70000 [7] = ((fun _ => 0), false) ∧
    ((gdbWriteAddrs c9pt c9inR (fun _ => 0) 4096 [7]).2 = true ↔
      gdbWriteChecksOk c9pt c9inR 4096 0 1 = true) ∧
    ((gdbReadAddrs c9pt c9inR (fun _ => 0) 4096 1).isSome = true ↔
      (c9inR 4096 && gdbReadChecksOk c9pt 4096 0 1) = true) :=
  ⟨by decide, by decide,
   (gdb_mem_access_amended c9pt c9inR (fun _ => 0) 70000 [7] 0).2.1
     (by decide) (by decide),
   (gdb_mem_access_amended c9pt c9inR (fun _ => 0) 4096 [7] 1).1,
   (gdb_mem_access_amended c9pt c9inR (fun _ => 0) 4096 [7] 1).2.2⟩

/-- Witness for `init_stack_layout_amended` at the concrete base `4096`. -/
theorem init_stack_layout_amended_witness :
    (initStackLayout 4096).guardLo = 4096 ∧
    (initStackLayout 4096).guardHi = 4096 + BASE_PAGE_SIZE ∧
    (initStackLayout 4096).stackLo = (initStackLayout 4096).guardHi ∧
    (initStackLayout 4096).stackHi = 4096 + 768 * BASE_PAGE_SIZE ∧
    (initStackLayout 4096).stackHi - (initStackLayout 4096).stackLo
        = 767 * BASE_PAGE_SIZE ∧
    (initStackLayout 4096).guardRights = MapAction.readUser ∧
    (set_l3_entry_rights MapAction.readUser).writable = false ∧
    (initStackLayout 4096).stackRights = MapAction.readWriteKernel ∧
    (set_l3_entry_rights MapAction.readWriteKernel).writable = true :=
  init_stack_layout_amended 4096
